import Mathlib

/-! Verification of pty-tunnel-server: protocol codec, deferred-flush writer and
bus registry.

A shallow embedding of `packages/pty-tunnel-server` (Go) and the properties of
its frame codec (`protocol/messages.go`), of the buffering writer
(`buffering/buffering.go`) and of the producer registry of the bus
(`ws/bus.go`).

Conventions of the embedding:
* a Go `byte`/`uint8` is a `Fin 256`, a `[]byte` is a `List Byte`;
* a Go `error` is the text of its message, `nil` is `none` / `Except.ok`;
* a `nil` slice is `none`, a non-nil slice is `some l` where the difference
  matters (`ManualBufferedWriter.Buffer`);
* logging calls have no effect on the modelled state and are left out.
-/

namespace PtyTunnel

/-! ## protocol/messages.go -/

/-- Results `(value, error)` of fallible Go functions are compared by value. -/
instance instDecidableEqExcept {ε α : Type} [DecidableEq ε] [DecidableEq α] :
    DecidableEq (Except ε α)
  | .ok a, .ok b => if h : a = b then isTrue (by rw [h]) else isFalse (fun e => h (by cases e; rfl))
  | .error a, .error b =>
    if h : a = b then isTrue (by rw [h]) else isFalse (fun e => h (by cases e; rfl))
  | .ok _, .error _ => isFalse (fun e => by cases e)
  | .error _, .ok _ => isFalse (fun e => by cases e)

/-- Go `byte` (`uint8`). -/
abbrev Byte := Fin 256

/-- Go `type MessageType uint8`. -/
abbrev MessageType := Byte

/-- Constant `MessageTypeMessage MessageType = 0`. -/
def MessageTypeMessage : MessageType := 0

/-- Constant `MessageTypeResize MessageType = 1`. -/
def MessageTypeResize : MessageType := 1

/-- Constant `MessageTypeReady MessageType = 2`. -/
def MessageTypeReady : MessageType := 2

/-- Method `MessageType.String`. -/
def MessageType.String (mt : MessageType) : String :=
  if mt = MessageTypeMessage then "Message"
  else if mt = MessageTypeResize then "Resize"
  else if mt = MessageTypeReady then "Ready"
  else "Unknown"

/-- Function `ParseMessageType`: the byte itself when it is one of the three
defined kinds, an error otherwise. -/
def ParseMessageType (b : Byte) : Except String MessageType :=
  if b = MessageTypeMessage ∨ b = MessageTypeResize ∨ b = MessageTypeReady then
    .ok b
  else
    .error ("unknown message type: " ++ toString b.val)

/-- Go `type Message struct { Type MessageType; Payload []byte }` (the field
`Type` is spelled `Typ`, `Type` being reserved). -/
structure Message where
  Typ : MessageType
  Payload : List Byte
deriving DecidableEq, Repr

/-- Go `type MessageText struct { Data []byte }`. -/
structure MessageText where
  Data : List Byte
deriving DecidableEq, Repr

/-- Go `type MessageResize struct { Cols, Rows uint16 }`. -/
structure MessageResize where
  Cols : Nat
  Rows : Nat
deriving DecidableEq, Repr

/-- Go `type MessageReady struct{}`. -/
structure MessageReady where
deriving DecidableEq, Repr

/-- Go slice expression `s[lo:hi]` (within bounds). -/
def slice (s : List Byte) (lo hi : Nat) : List Byte :=
  (s.drop lo).take (hi - lo)

/-- Library function `binary.BigEndian.Uint16`: `uint16(b[1]) | uint16(b[0])<<8`
in 16-bit arithmetic; `none` stands for the index-out-of-range panic on a slice
shorter than two bytes. -/
def Uint16 (b : List Byte) : Option Nat :=
  match b with
  | b0 :: b1 :: _ => some ((b1.val ||| ((b0.val <<< 8) % 65536)) % 65536)
  | _ => none

/-- Method `Message.Resize`. -/
def Message.Resize (m : Message) : Except String MessageResize :=
  if m.Typ ≠ MessageTypeResize ∨ m.Payload.length < 4 then
    .error "invalid resize message"
  else
    match Uint16 (slice m.Payload 0 2), Uint16 (slice m.Payload 2 4) with
    | some cols, some rows =>
      if cols < 1 ∨ rows < 1 then
        .error "resize dimensions must be greater than 0"
      else
        .ok { Cols := cols, Rows := rows }
    | _, _ => .error "runtime error: index out of range"

/-- Method `Message.Ready`. -/
def Message.Ready (m : Message) : Except String MessageReady :=
  if m.Typ ≠ MessageTypeReady then .error "invalid ready message"
  else .ok {}

/-- Method `Message.Text`. -/
def Message.Text (m : Message) : Except String MessageText :=
  if m.Typ ≠ MessageTypeMessage then .error "invalid text message"
  else .ok { Data := m.Payload }

/-- Function `Parse`: an empty input is an error, otherwise the first byte is
the kind (checked by `ParseMessageType`) and `data[1:]` the payload. -/
def Parse (data : List Byte) : Except String Message :=
  match data with
  | [] => .error "empty message"
  | b :: rest =>
    match ParseMessageType b with
    | .error err => .error err
    | .ok messageType => .ok { Typ := messageType, Payload := rest }

/-- Method `Message.Bytes`: `append([]byte{uint8(m.Type)}, m.Payload...)`. -/
def Message.Bytes (m : Message) : List Byte :=
  [m.Typ] ++ m.Payload

/-! ## buffering/buffering.go -/

/-- Behaviour of the wrapped `io.Writer` (field `Inner`): from the slices it
has received so far and the slice written now, the `(n, err)` it returns. -/
abbrev InnerWriter := List (List Byte) → List Byte → Int × Option String

/-- An `io.Writer` that accepts every write: it returns `(len(p), nil)`, as
`ws.Writer.Write` does when the connection write succeeds. -/
def acceptingWriter : InnerWriter := fun _ p => ((p.length : Int), none)

/-- Mutable fields of Go `type ManualBufferedWriter struct`. `Buffer = none`
is the `nil` slice; `MarkedReadyAt = 0` is the zero `time.Time`. The fields
`Inner` and `Logger` are never assigned by the methods; `Inner` is passed to
them as a parameter. -/
structure ManualBufferedWriter where
  Buffer : Option (List Byte)
  MarkedReadyAt : Nat
deriving DecidableEq, Repr

/-- A writer together with its sink: `sink` lists the slices handed to
`Inner.Write`, oldest first. -/
structure WriterState where
  c : ManualBufferedWriter
  sink : List (List Byte)
deriving DecidableEq, Repr

/-- Call of `c.Inner.Write(p)`: the sink records `p` and answers. -/
def innerWrite (inner : InnerWriter) (s : WriterState) (p : List Byte) :
    WriterState × (Int × Option String) :=
  ({ s with sink := s.sink ++ [p] }, inner s.sink p)

/-- Method `ManualBufferedWriter.Write`. -/
def ManualBufferedWriter.Write (inner : InnerWriter) (s : WriterState) (p : List Byte) :
    WriterState × (Int × Option String) :=
  match s.c.Buffer with
  | some buf =>
    ({ s with c := { s.c with Buffer := some (buf ++ p) } }, ((p.length : Int), none))
  | none => innerWrite inner s p

/-- Method `ManualBufferedWriter.Ready`; `now` is the value of `time.Now()`. -/
def ManualBufferedWriter.Ready (inner : InnerWriter) (s : WriterState) (now : Nat) :
    WriterState × (Int × Option String) :=
  let s1 : WriterState :=
    if s.c.MarkedReadyAt = 0 then { s with c := { s.c with MarkedReadyAt := now } } else s
  match s1.c.Buffer with
  | none => (s1, (0, none))
  | some buffer => innerWrite inner { s1 with c := { s1.c with Buffer := none } } buffer

/-- The writer `Term.Run` constructs: `Buffer: []byte{}` (non-nil, empty),
`MarkedReadyAt` left at its zero value, nothing written to the sink yet. -/
def newBuffering : WriterState :=
  { c := { Buffer := some [], MarkedReadyAt := 0 }, sink := [] }

/-- One call on the writer: `Write(p)` or `Ready()` (with the clock reading
`time.Now()` would give). -/
inductive Op where
  | Write (p : List Byte)
  | Ready (now : Nat)
deriving DecidableEq, Repr

/-- Perform one call. -/
def Op.apply (inner : InnerWriter) (s : WriterState) : Op → WriterState × (Int × Option String)
  | .Write p => ManualBufferedWriter.Write inner s p
  | .Ready now => ManualBufferedWriter.Ready inner s now

/-- Perform a sequence of calls, in order; the final state. -/
def runOps (inner : InnerWriter) (s : WriterState) (ops : List Op) : WriterState :=
  ops.foldl (fun st op => (op.apply inner st).1) s

/-- Perform a sequence of `Write` calls, in order: the final state and what
each call returned. -/
def writeAll (inner : InnerWriter) (s : WriterState) :
    List (List Byte) → WriterState × List (Int × Option String)
  | [] => (s, [])
  | p :: ps =>
    let r := ManualBufferedWriter.Write inner s p
    let rest := writeAll inner r.1 ps
    (rest.1, r.2 :: rest.2)

/-- The inputs of the `Write` calls of a sequence, in order. -/
def writesOf : List Op → List (List Byte)
  | [] => []
  | .Write p :: ops => p :: writesOf ops
  | .Ready _ :: ops => writesOf ops

/-- Whether a call is a `Ready`. -/
def Op.isReady : Op → Bool
  | .Ready _ => true
  | .Write _ => false

/-! ## ws/bus.go -/

/-- A `*websocket.Conn`; every upgraded connection is a new object, told apart
from the others by its identifier. -/
abbrev Conn := Nat

/-- Go `type ClientConnection struct` (a subscriber record): the connection,
whether its `cancel` function has been invoked, whether `warmupOnce` has
fired. -/
structure ClientConnection where
  conn : Conn
  cancelled : Bool
  warmedUp : Bool
deriving DecidableEq, Repr

/-- Go `type ProcessConnections struct` (a session): the subscriber records,
the producer connection and whether the session context has been cancelled. -/
structure ProcessConnections where
  subscribers : List ClientConnection
  producer : Conn
  cancelled : Bool
deriving DecidableEq, Repr

/-- Function `NewForProcess`: a session with no subscriber, `conn` as producer
and a live context. -/
def NewForProcess (conn : Conn) (_pid : String) : ProcessConnections :=
  { subscribers := [], producer := conn, cancelled := false }

/-- Go map read `m[k]` on a `map[string]V`; `none` is the zero value (`nil`)
returned for a missing key. -/
def mapGet {V : Type} : List (String × V) → String → Option V
  | [], _ => none
  | (k1, v) :: m, k => if k1 = k then some v else mapGet m k

/-- Go `delete(m, k)`. -/
def mapDelete {V : Type} (m : List (String × V)) (k : String) : List (String × V) :=
  m.filter (fun e => decide (e.1 ≠ k))

/-- Go map assignment `m[k] = v`: the entry of `k`, if any, is replaced. -/
def mapSet {V : Type} (m : List (String × V)) (k : String) (v : V) : List (String × V) :=
  (k, v) :: mapDelete m k

/-- Go `type Bus struct`: the token (`[]byte`) and the registry
`processes map[string]*ProcessConnections`. A session is referred to by its
value; sessions are told apart by their producer connection. -/
structure Bus where
  token : List Byte
  processes : List (String × ProcessConnections)
deriving DecidableEq, Repr

/-- Function `NewBus`: the given token and an empty registry. -/
def NewBus (token : List Byte) : Bus :=
  { token := token, processes := [] }

/-- Go `type ConnectionType string`. -/
abbrev ConnectionType := String

/-- Variable `ConnectionTypeClient`. -/
def ConnectionTypeClient : ConnectionType := "client"

/-- Variable `ConnectionTypeProcess`. -/
def ConnectionTypeProcess : ConnectionType := "process"

/-- Method `ConnectionType.IsValid`. -/
def ConnectionType.IsValid (c : ConnectionType) : Bool :=
  decide (c = ConnectionTypeClient) || decide (c = ConnectionTypeProcess)

/-- Library function `subtle.ConstantTimeCompare`: `0` on a length mismatch,
otherwise the bytes are xor-ed pairwise, the results or-ed together, and the
answer is `1` exactly when that is `0`. -/
def ConstantTimeCompare (x y : List Byte) : Nat :=
  if x.length ≠ y.length then 0
  else
    let v := (List.zipWith (fun a b => a.val ^^^ b.val) x y).foldl (fun acc d => acc ||| d) 0
    if v = 0 then 1 else 0

/-- Constant `http.StatusBadRequest`. -/
def StatusBadRequest : Nat := 400

/-- Constant `http.StatusUnauthorized`. -/
def StatusUnauthorized : Nat := 401

/-- Constant `http.StatusNotFound`. -/
def StatusNotFound : Nat := 404

/-- Constant `http.StatusInternalServerError`. -/
def StatusInternalServerError : Nat := 500

/-- What `HandleWebSocketConnection` reads from the request: the query
parameters `token` (a Go string, that is its bytes) and `processId`, and the
path value `type`. -/
structure Request where
  token : List Byte
  processID : String
  connType : ConnectionType
deriving DecidableEq, Repr

/-- Method `Bus.getProcess`. -/
def Bus.getProcess (b : Bus) (processID : String) : Option ProcessConnections :=
  mapGet b.processes processID

/-- Outcome of the library call `upgrader.Upgrade(w, r, nil)`: the new
connection, or an error. On an error the library has as a rule answered on `w`
itself before returning: `replied` is the status it wrote (400 for a request
that is no WebSocket handshake, and others), `none` when it wrote nothing;
`hijacked` tells whether it had already taken the connection over from the
HTTP server. -/
inductive UpgradeResult where
  | ok (conn : Conn)
  | failed (replied : Option Nat) (hijacked : Bool)
deriving DecidableEq, Repr

/-- Where a call of `HandleWebSocketConnection` stands once it has returned or
blocks in a session loop. -/
inductive Entered where
  /-- The response carries `status` and the handler has returned; the
  connection was not upgraded. -/
  | responded (status : Nat)
  /-- The handler has returned without any response: the upgrade failed after
  the connection had been taken over and nothing had been written. -/
  | unanswered
  /-- Upgraded with type `client`; `session` is what the second `getProcess`
  returned (on `none` the handler returns, otherwise it is in `AcceptClient`). -/
  | client (conn : Conn) (session : Option ProcessConnections)
  /-- Upgraded with type `process`: the session `proc` is registered and the
  handler is in `proc.Run()`. -/
  | producer (conn : Conn) (proc : ProcessConnections)
  /-- Upgraded and returned at once (the `default` case of the switch). -/
  | closed (conn : Conn)
deriving DecidableEq, Repr

/-- Method `Bus.HandleWebSocketConnection`, from its start to the point where
it returns or enters `AcceptClient` / `proc.Run()`. `upgrade` is the result of
`upgrader.Upgrade`. When it is an error the handler calls
`w.WriteHeader(http.StatusInternalServerError)`, which sets the status only if
no status has been written on `w` and the connection has not been taken over:
after a reply of the library the response keeps the status of that reply. -/
def Bus.HandleWebSocketConnection (b : Bus) (r : Request) (upgrade : UpgradeResult) :
    Bus × Entered :=
  if r.token = [] ∨ r.connType.IsValid = false ∨ r.processID = "" then
    (b, .responded StatusBadRequest)
  else if ConstantTimeCompare r.token b.token ≠ 1 then
    (b, .responded StatusUnauthorized)
  else if r.connType = ConnectionTypeClient ∧ b.getProcess r.processID = none then
    (b, .responded StatusNotFound)
  else
    match upgrade with
    | .failed (some status) _ => (b, .responded status)
    | .failed none true => (b, .unanswered)
    | .failed none false => (b, .responded StatusInternalServerError)
    | .ok conn =>
      if r.connType = ConnectionTypeClient then
        (b, .client conn (b.getProcess r.processID))
      else if r.connType = ConnectionTypeProcess then
        let proc := NewForProcess conn r.processID
        ({ b with processes := mapSet b.processes r.processID proc }, .producer conn proc)
      else
        (b, .closed conn)

/-- Method `ProcessConnections.Cleanup`: cancel the session, then for every
subscriber record invoke its cancel function and delete it from the set. The
result is the session afterwards and the records whose cancel function was
invoked, as they are after the call. -/
def ProcessConnections.Cleanup (pc : ProcessConnections) :
    ProcessConnections × List ClientConnection :=
  ({ pc with cancelled := true, subscribers := [] },
   pc.subscribers.map (fun conn => { conn with cancelled := true }))

/-- Method `Bus.HandleWebSocketConnection`, `process` case, after `proc.Run()`
has returned: `delete(b.processes, processID)` under the lock. -/
def Bus.producerExit (b : Bus) (processID : String) : Bus :=
  { b with processes := mapDelete b.processes processID }

/-- The bus together with the producer handlers that are inside `proc.Run()`:
for each, its connection and the `processId` it attached with. -/
structure World where
  bus : Bus
  running : List (Conn × String)
deriving DecidableEq, Repr

/-- A bus just created, no handler running. -/
def World.init (token : List Byte) : World :=
  { bus := NewBus token, running := [] }

/-- Events of the producer side: a `process` request carrying the bus token
whose upgrade yields the new connection `conn`, and the end of the loop of the
producer on `conn` (its connection closed or errored). -/
inductive Event where
  | attach (conn : Conn) (processID : String)
  | disconnect (conn : Conn)
deriving DecidableEq, Repr

/-- One event. `none` for an event that cannot occur: an upgrade never yields
a connection that is already attached, and only the loop of an attached
producer can end. -/
def World.step (w : World) : Event → Option World
  | .attach conn processID =>
    if conn ∈ w.running.map Prod.fst then none
    else
      match w.bus.HandleWebSocketConnection
          { token := w.bus.token, processID := processID, connType := ConnectionTypeProcess }
          (.ok conn) with
      | (b, .producer c _) => some { bus := b, running := w.running ++ [(c, processID)] }
      | (b, _) => some { w with bus := b }
  | .disconnect conn =>
    match w.running.find? (fun e => decide (e.1 = conn)) with
    | none => none
    | some (_, processID) =>
      some { bus := w.bus.producerExit processID,
             running := w.running.filter (fun e => decide (e.1 ≠ conn)) }

/-- A sequence of events, in order. -/
def World.run (w : World) : List Event → Option World
  | [] => some w
  | e :: es =>
    match w.step e with
    | none => none
    | some w1 => w1.run es

/-- Whether, along a sequence of events, every attach uses a `processId` that
no attached producer holds at that moment. -/
def World.exclusive (w : World) : List Event → Bool
  | [] => true
  | e :: es =>
    (match e with
      | .attach _ processID => decide (processID ∉ w.running.map Prod.snd)
      | .disconnect _ => true) &&
    (match w.step e with
      | none => true
      | some w1 => w1.exclusive es)

/-- Method `Bus.HandleWebSocketConnection`, `process` case, from the return of
`proc.Run()` to the end: the entry of `processID` is deleted from the registry,
then `proc.Cleanup()` runs on the session the handler created. -/
def Bus.producerTeardown (b : Bus) (processID : String) (proc : ProcessConnections) :
    Bus × (ProcessConnections × List ClientConnection) :=
  (b.producerExit processID, proc.Cleanup)

/-- Constant `websocket.TextMessage`. -/
def TextMessage : Nat := 1

/-- Constant `websocket.BinaryMessage`. -/
def BinaryMessage : Nat := 2

/-- What one call of `conn.ReadMessage()` returns: a message with its type, or
an error (`io.EOF`, a close error, any other error). -/
inductive ReadResult where
  | message (msgType : Nat) (msg : List Byte)
  | eof
  | closeError (text : String)
  | error (text : String)
deriving DecidableEq, Repr

/-- Function `slurpMessages` (the reader of a subscriber connection), run on
the successive results of `conn.ReadMessage()`: the messages it sends on
`targetChan`, in order, and whether it has left the loop and called `cancel`
(it has not when the results run out: the next read blocks). -/
def slurpMessages : List ReadResult → List Message × Bool
  | [] => ([], false)
  | .message msgType msg :: rest =>
    let next := slurpMessages rest
    let buf : Option (List Byte) :=
      if msgType = TextMessage then
        some (Message.Bytes { Typ := MessageTypeMessage, Payload := msg })
      else if msgType = BinaryMessage then some msg
      else none
    match buf with
    | none => next
    | some buf =>
      match Parse buf with
      | .error _ => next
      | .ok parsedMsg => (parsedMsg :: next.1, next.2)
  | _ :: _ => ([], true)

/-- Method `ProcessConnections.Run`, case `msg := <-pc.subscriberToProducer`
of the loop: each message taken from the channel is written to the producer
as `msg.Bytes()`; the result lists the buffers written, in order. -/
def Run_toProducer (msgs : List Message) : List (List Byte) :=
  msgs.map Message.Bytes

/-- Method `ProcessConnections.Run`, the goroutine reading the producer, run
on the successive results of `pc.producer.ReadMessage()`: the blobs it sends
on `producerToSubscribers`, in order, and whether it has left the loop and
cancelled the session. The message type is not looked at. -/
def Run_producerReader : List ReadResult → List (List Byte) × Bool
  | [] => ([], false)
  | .message _ msg :: rest =>
    let next := Run_producerReader rest
    (msg :: next.1, next.2)
  | _ :: _ => ([], true)

/-- The frames one goroutine of `forwardToSubscribers` writes to its
subscriber connection: the zero-length frame inside `warmupOnce.Do` when the
once has not fired yet, then `msg`. -/
def ClientConnection.frames (conn : ClientConnection) (msg : List Byte) : List (List Byte) :=
  (if conn.warmedUp then [] else [[]]) ++ [msg]

/-- Method `ProcessConnections.forwardToSubscribers`: for every subscriber the
warm-up once fires and `msg` is written. The result is the session afterwards
and the frames written, each with its connection; the frames of one
connection are in the order they were written. -/
def ProcessConnections.forwardToSubscribers (pc : ProcessConnections) (msg : List Byte) :
    ProcessConnections × List (Conn × List Byte) :=
  ({ pc with subscribers := pc.subscribers.map (fun conn => { conn with warmedUp := true }) },
   pc.subscribers.flatMap (fun conn => (conn.frames msg).map (fun frame => (conn.conn, frame))))

/-- Method `ProcessConnections.AcceptClient`, up to the wait on `ctx.Done()`:
`pc.subscribers[conn]` is set to a new record whose context is a child of the
session context and whose `warmupOnce` has not fired. -/
def ProcessConnections.AcceptClient (pc : ProcessConnections) (conn : Conn) :
    ProcessConnections :=
  { pc with subscribers :=
      pc.subscribers.filter (fun c => decide (c.conn ≠ conn)) ++
        [{ conn := conn, cancelled := pc.cancelled, warmedUp := false }] }

/-- Method `ProcessConnections.AcceptClient`, after `ctx.Done()`:
`delete(pc.subscribers, conn)`. -/
def ProcessConnections.AcceptClient_exit (pc : ProcessConnections) (conn : Conn) :
    ProcessConnections :=
  { pc with subscribers := pc.subscribers.filter (fun c => decide (c.conn ≠ conn)) }

/-- What happens to a session while its producer loop runs: a payload is
fanned out, a subscriber is accepted, a subscriber leaves. -/
inductive SessionEvent where
  | forward (msg : List Byte)
  | accept (conn : Conn)
  | leave (conn : Conn)
deriving DecidableEq, Repr

/-- A sequence of session events, in order: the session afterwards and all
frames written to subscriber connections. -/
def ProcessConnections.runEvents (pc : ProcessConnections) :
    List SessionEvent → ProcessConnections × List (Conn × List Byte)
  | [] => (pc, [])
  | .forward msg :: evs =>
    let r := pc.forwardToSubscribers msg
    let next := r.1.runEvents evs
    (next.1, r.2 ++ next.2)
  | .accept conn :: evs => (pc.AcceptClient conn).runEvents evs
  | .leave conn :: evs => (pc.AcceptClient_exit conn).runEvents evs

/-- The frames written to one connection, in order. -/
def writesTo (conn : Conn) (log : List (Conn × List Byte)) : List (List Byte) :=
  (log.filter (fun e => decide (e.1 = conn))).map Prod.snd

/-- The payloads fanned out along a sequence of session events, in order. -/
def payloadsOf : List SessionEvent → List (List Byte)
  | [] => []
  | .forward msg :: evs => msg :: payloadsOf evs
  | _ :: evs => payloadsOf evs

/-- Whether an event accepts or removes the subscriber on `conn`. -/
def SessionEvent.touches (conn : Conn) : SessionEvent → Bool
  | .forward _ => false
  | .accept c => decide (c = conn)
  | .leave c => decide (c = conn)

/-! ## glue/handler.go -/

/-- Behaviour of the PTY: the error, if any, of `pty.Setsize` for the given
rows and columns and of `ptyFile.Write` for the given data. -/
structure PtyBehaviour where
  Setsize : Nat → Nat → Option String
  Write : List Byte → Option String

/-- A PTY on which every call succeeds. -/
def okPty : PtyBehaviour :=
  { Setsize := fun _ _ => none, Write := fun _ => none }

/-- A call made on the PTY. -/
inductive PtyCall where
  | Setsize (rows cols : Nat)
  | Write (data : List Byte)
deriving DecidableEq, Repr

/-- Go `type MessageHandler struct`: whether `readyOnce` has fired, the number
of times `close(h.ready)` has run (the latch is tripped from the first one; a
second one would panic), and the calls made on `ptyFile`, oldest first. -/
structure MessageHandler where
  readyOnce : Bool
  ready : Nat
  ptyFile : List PtyCall
deriving DecidableEq, Repr

/-- Function `NewMessageHandler`: the once not fired, the channel open. -/
def NewMessageHandler : MessageHandler :=
  { readyOnce := false, ready := 0, ptyFile := [] }

/-- Whether `WaitReady` returns: the channel `ready` is closed. -/
def MessageHandler.tripped (h : MessageHandler) : Bool :=
  decide (1 ≤ h.ready)

/-- Formatting of a byte slice under the verb `%x`: two lower-case hexadecimal
digits per byte. -/
def hexEncode (data : List Byte) : String :=
  String.join (data.map (fun b =>
    ["0", "1", "2", "3", "4", "5", "6", "7", "8", "9", "a", "b", "c", "d", "e", "f"].getD
        (b.val / 16) "0" ++
      ["0", "1", "2", "3", "4", "5", "6", "7", "8", "9", "a", "b", "c", "d", "e", "f"].getD
        (b.val % 16) "0"))

/-- Method `MessageHandler.HandleBytes`: the handler afterwards and the error
returned (`none` for `nil`). -/
def MessageHandler.HandleBytes (pty : PtyBehaviour) (h : MessageHandler) (msg : List Byte) :
    MessageHandler × Option String :=
  match Parse msg with
  | .error err => (h, some ("parsing message: " ++ err))
  | .ok parsed =>
    if parsed.Typ = MessageTypeReady then
      (if h.readyOnce then h else { h with readyOnce := true, ready := h.ready + 1 }, none)
    else if parsed.Typ = MessageTypeResize then
      match parsed.Resize with
      | .error err =>
        (h, some ("parsing resize message (" ++ hexEncode msg ++ "): " ++ err))
      | .ok resize =>
        let h1 := { h with ptyFile := h.ptyFile ++ [.Setsize resize.Rows resize.Cols] }
        match pty.Setsize resize.Rows resize.Cols with
        | some err =>
          (h1, some ("setting PTY size to " ++ toString resize.Cols ++ "x" ++
            toString resize.Rows ++ ": " ++ err))
        | none => (h1, none)
    else if parsed.Typ = MessageTypeMessage then
      match parsed.Text with
      | .error err =>
        (h, some ("parsing text message (" ++ hexEncode msg ++ "): " ++ err))
      | .ok text =>
        let h1 := { h with ptyFile := h.ptyFile ++ [.Write text.Data] }
        match pty.Write text.Data with
        | some err => (h1, some ("writing data to PTY: " ++ err))
        | none => (h1, none)
    else
      (h, some ("unknown message type: " ++ MessageType.String parsed.Typ))

/-- Calls of `HandleBytes` on a sequence of frames, one after the other,
whatever each call returns; the handler afterwards. -/
def MessageHandler.handleAll (pty : PtyBehaviour) (h : MessageHandler) :
    List (List Byte) → MessageHandler
  | [] => h
  | msg :: rest => MessageHandler.handleAll pty (MessageHandler.HandleBytes pty h msg).1 rest

/-! ## term/conn.go -/

/-- What one call of `conn.ReadBinary()` returns: a frame, `io.EOF`, or another
error. -/
inductive BinaryRead where
  | frame (msg : List Byte)
  | eof
  | error (text : String)
deriving DecidableEq, Repr

/-- How the reader pump stands: waiting in `ReadBinary`, left the loop on
`io.EOF`, returned on a read error, returned on an error of `HandleBytes`. -/
inductive PumpExit where
  | blocked
  | eof
  | readError (text : String)
  | handlerError (text : String)
deriving DecidableEq, Repr

/-- State of the reader pump: the handler, the frames passed to `HandleBytes`
so far, in order, and how the pump stands. -/
structure PumpResult where
  handler : MessageHandler
  dispatched : List (List Byte)
  exit : PumpExit
deriving DecidableEq, Repr

/-- Method `Term.Run`, the goroutine reading the transport (the reader pump),
run on the successive results of `conn.ReadBinary()`. -/
def Run_readerPump (pty : PtyBehaviour) (h : MessageHandler) : List BinaryRead → PumpResult
  | [] => { handler := h, dispatched := [], exit := .blocked }
  | .eof :: _ => { handler := h, dispatched := [], exit := .eof }
  | .error text :: _ => { handler := h, dispatched := [], exit := .readError text }
  | .frame msg :: rest =>
    match MessageHandler.HandleBytes pty h msg with
    | (h1, some err) => { handler := h1, dispatched := [msg], exit := .handlerError err }
    | (h1, none) =>
      let next := Run_readerPump pty h1 rest
      { next with dispatched := msg :: next.dispatched }

/-- Whether a frame is a protocol error: the codec rejects it (empty frame,
unknown kind) or it is a RESIZE frame that `Resize` rejects. -/
def protocolError (msg : List Byte) : Bool :=
  match Parse msg with
  | .error _ => true
  | .ok parsed =>
    decide (parsed.Typ = MessageTypeResize) &&
      (match parsed.Resize with
        | .error _ => true
        | .ok _ => false)

/-- The registry and the attached producers agree: every entry is the session
of an attached producer that attached with that `processId`, every attached
producer has its session in the registry under its `processId`, and no two
attached producers share a connection or a `processId`. -/
structure World.Consistent (w : World) : Prop where
  entry_attached : ∀ processID s, w.bus.getProcess processID = some s →
    ∃ conn, (conn, processID) ∈ w.running ∧ s = NewForProcess conn processID
  attached_entry : ∀ conn processID, (conn, processID) ∈ w.running →
    w.bus.getProcess processID = some (NewForProcess conn processID)
  conn_unique : ∀ conn p1 p2, (conn, p1) ∈ w.running → (conn, p2) ∈ w.running → p1 = p2
  pid_unique : ∀ c1 c2 processID,
    (c1, processID) ∈ w.running → (c2, processID) ∈ w.running → c1 = c2

end PtyTunnel

/-! ## Properties of the codec -/

namespace PtyTunnel

/-- The three defined kinds are accepted by `ParseMessageType` unchanged. -/
theorem ParseMessageType_ok (b : Byte)
    (h : b = MessageTypeMessage ∨ b = MessageTypeResize ∨ b = MessageTypeReady) :
    ParseMessageType b = .ok b := by
  unfold ParseMessageType
  rw [if_pos h]

/-- Any other byte is refused by `ParseMessageType`. -/
theorem ParseMessageType_error (b : Byte)
    (h : ¬ (b = MessageTypeMessage ∨ b = MessageTypeResize ∨ b = MessageTypeReady)) :
    ParseMessageType b = .error ("unknown message type: " ++ toString b.val) := by
  unfold ParseMessageType
  rw [if_neg h]

/-- Big-endian decoding of two bytes: `Uint16` computes `256 * hi + lo`. -/
theorem Uint16_cons (hi lo : Byte) (rest : List Byte) :
    Uint16 (hi :: lo :: rest) = some (256 * hi.val + lo.val) := by
  have h1 : hi.val < 256 := hi.isLt
  have h2 : lo.val < 2 ^ 8 := lo.isLt
  have hs : hi.val <<< 8 = 2 ^ 8 * hi.val := by rw [Nat.shiftLeft_eq, Nat.mul_comm]
  have hor : 2 ^ 8 * hi.val ||| lo.val = 2 ^ 8 * hi.val + lo.val :=
    (Nat.mul_add_lt_is_or h2 hi.val).symm
  have hm : (hi.val <<< 8) % 65536 = hi.val <<< 8 := Nat.mod_eq_of_lt (by omega)
  simp only [Uint16]
  rw [hm, Nat.lor_comm, hs, hor]
  congr 1
  omega

/-- C1: for every message whose `Type` is one of the three defined kinds and
for every payload (the empty one included), `Parse(m.Bytes())` succeeds and
returns a message with the same `Type` and the same `Payload`. -/
theorem Parse_Bytes_roundtrip (m : Message)
    (h : m.Typ = MessageTypeMessage ∨ m.Typ = MessageTypeResize ∨ m.Typ = MessageTypeReady) :
    ∃ m1, Parse m.Bytes = .ok m1 ∧ m1.Typ = m.Typ ∧ m1.Payload = m.Payload := by
  refine ⟨{ Typ := m.Typ, Payload := m.Payload }, ?_, rfl, rfl⟩
  simp only [Message.Bytes, List.singleton_append, Parse, ParseMessageType_ok m.Typ h]

/-- C1 at a RESIZE frame and at a READY frame with the empty payload. -/
theorem Parse_Bytes_roundtrip_witness :
    (∃ m1, Parse (Message.mk 1 [0x00, 0x50, 0x00, 0x18]).Bytes = .ok m1 ∧
      m1.Typ = 1 ∧ m1.Payload = [0x00, 0x50, 0x00, 0x18]) ∧
    (∃ m1, Parse (Message.mk 2 []).Bytes = .ok m1 ∧ m1.Typ = 2 ∧ m1.Payload = []) :=
  ⟨Parse_Bytes_roundtrip (Message.mk 1 [0x00, 0x50, 0x00, 0x18]) (by decide),
   Parse_Bytes_roundtrip (Message.mk 2 []) (by decide)⟩

/-- C2: for every non-empty byte sequence whose first byte is 0, 1 or 2,
`Parse` succeeds and `Bytes()` of the result is the input again, of the same
length and with the same bytes in the same order. -/
theorem Bytes_Parse_roundtrip (data : List Byte) (hne : data ≠ [])
    (htag : data.head? = some MessageTypeMessage ∨ data.head? = some MessageTypeResize ∨
      data.head? = some MessageTypeReady) :
    ∃ m, Parse data = .ok m ∧ m.Bytes = data ∧ m.Bytes.length = data.length := by
  cases data with
  | nil => exact absurd rfl hne
  | cons b rest =>
    have hb : b = MessageTypeMessage ∨ b = MessageTypeResize ∨ b = MessageTypeReady := by
      simpa [List.head?] using htag
    refine ⟨{ Typ := b, Payload := rest }, ?_, rfl, rfl⟩
    simp only [Parse, ParseMessageType_ok b hb]

/-- C2 at the DATA frame of "hello". -/
theorem Bytes_Parse_roundtrip_witness :
    ∃ m, Parse [0x00, 0x68, 0x65, 0x6c, 0x6c, 0x6f] = .ok m ∧
      m.Bytes = [0x00, 0x68, 0x65, 0x6c, 0x6c, 0x6f] ∧
      m.Bytes.length = [(0x00 : Byte), 0x68, 0x65, 0x6c, 0x6c, 0x6f].length :=
  Bytes_Parse_roundtrip [0x00, 0x68, 0x65, 0x6c, 0x6c, 0x6f] (by decide) (by decide)

/-- C3: `Parse` returns an error exactly when the input is empty or its first
byte is none of 0, 1, 2; a lone recognized tag byte parses to a message with
the empty payload, and the RESIZE-tagged `[0x01, 0x50]`, whose payload is
shorter than 4 bytes, parses. -/
theorem Parse_error_iff :
    (∀ data : List Byte, (∃ err, Parse data = .error err) ↔
      (data = [] ∨ ∃ b rest, data = b :: rest ∧
        b ≠ MessageTypeMessage ∧ b ≠ MessageTypeResize ∧ b ≠ MessageTypeReady)) ∧
    (∀ data : List Byte, (∃ m, Parse data = .ok m) ↔
      ∃ b rest, data = b :: rest ∧
        (b = MessageTypeMessage ∨ b = MessageTypeResize ∨ b = MessageTypeReady)) ∧
    Parse [MessageTypeMessage] = .ok { Typ := MessageTypeMessage, Payload := [] } ∧
    Parse [MessageTypeResize] = .ok { Typ := MessageTypeResize, Payload := [] } ∧
    Parse [MessageTypeReady] = .ok { Typ := MessageTypeReady, Payload := [] } ∧
    Parse [0x01, 0x50] = .ok { Typ := MessageTypeResize, Payload := [0x50] } := by
  refine ⟨?_, ?_, by decide, by decide, by decide, by decide⟩
  · intro data
    cases data with
    | nil => simp [Parse]
    | cons b rest =>
      by_cases hb : b = MessageTypeMessage ∨ b = MessageTypeResize ∨ b = MessageTypeReady
      · simp only [Parse, ParseMessageType_ok b hb]
        constructor
        · rintro ⟨err, herr⟩
          cases herr
        · rintro (h | ⟨b1, rest1, heq, h0, h1, h2⟩)
          · cases h
          · cases heq
            rcases hb with h | h | h
            exacts [absurd h h0, absurd h h1, absurd h h2]
      · simp only [Parse, ParseMessageType_error b hb]
        constructor
        · intro _
          refine Or.inr ⟨b, rest, rfl, ?_, ?_, ?_⟩
          · exact fun h => hb (Or.inl h)
          · exact fun h => hb (Or.inr (Or.inl h))
          · exact fun h => hb (Or.inr (Or.inr h))
        · intro _
          exact ⟨_, rfl⟩
  · intro data
    cases data with
    | nil => simp [Parse]
    | cons b rest =>
      by_cases hb : b = MessageTypeMessage ∨ b = MessageTypeResize ∨ b = MessageTypeReady
      · simp only [Parse, ParseMessageType_ok b hb]
        constructor
        · intro _
          exact ⟨b, rest, rfl, hb⟩
        · intro _
          exact ⟨_, rfl⟩
      · simp only [Parse, ParseMessageType_error b hb]
        constructor
        · rintro ⟨m, hm⟩
          cases hm
        · rintro ⟨b1, rest1, heq, h⟩
          cases heq
          exact absurd h hb

/-- C4: `m.Resize()` succeeds exactly when `m.Type` is `Resize`, the payload
has at least 4 bytes and both `cols = 256 * Payload[0] + Payload[1]` and
`rows = 256 * Payload[2] + Payload[3]` are at least 1; it then returns that
`(Cols, Rows)` pair, and otherwise it returns an error. -/
theorem Resize_iff (m : Message) :
    ((∃ r, m.Resize = .ok r) ↔
      (m.Typ = MessageTypeResize ∧ 4 ≤ m.Payload.length ∧
        1 ≤ 256 * (m.Payload.getD 0 0).val + (m.Payload.getD 1 0).val ∧
        1 ≤ 256 * (m.Payload.getD 2 0).val + (m.Payload.getD 3 0).val)) ∧
    (∀ r, m.Resize = .ok r →
      r = { Cols := 256 * (m.Payload.getD 0 0).val + (m.Payload.getD 1 0).val,
            Rows := 256 * (m.Payload.getD 2 0).val + (m.Payload.getD 3 0).val }) ∧
    (¬ (m.Typ = MessageTypeResize ∧ 4 ≤ m.Payload.length ∧
        1 ≤ 256 * (m.Payload.getD 0 0).val + (m.Payload.getD 1 0).val ∧
        1 ≤ 256 * (m.Payload.getD 2 0).val + (m.Payload.getD 3 0).val) →
      ∃ err, m.Resize = .error err) := by
  obtain ⟨typ, payload⟩ := m
  refine ⟨?_, ?_, ?_⟩
  case refine_3 =>
    intro h
    by_cases hguard : typ ≠ MessageTypeResize ∨ payload.length < 4
    · exact ⟨"invalid resize message", by unfold Message.Resize; rw [if_pos hguard]⟩
    · have hlen : 4 ≤ payload.length := by
        by_contra hc
        exact hguard (Or.inr (by omega))
      match payload, hlen with
      | p0 :: p1 :: p2 :: p3 :: rest, _ =>
        refine ⟨"resize dimensions must be greater than 0", ?_⟩
        have hdim : 256 * p0.val + p1.val < 1 ∨ 256 * p2.val + p3.val < 1 := by
          by_contra hc
          apply h
          refine ⟨?_, by simp, ?_, ?_⟩
          · by_contra ht
            exact hguard (Or.inl ht)
          all_goals simp only [List.getD_cons_zero, List.getD_cons_succ]; omega
        unfold Message.Resize
        rw [if_neg hguard]
        simp only [slice, List.drop, List.take, Uint16_cons]
        rw [if_pos hdim]
  all_goals
    by_cases hguard : typ ≠ MessageTypeResize ∨ payload.length < 4
    · have hres : Message.Resize { Typ := typ, Payload := payload }
          = .error "invalid resize message" := by
        unfold Message.Resize
        rw [if_pos hguard]
      rw [hres]
      first
        | (constructor
           · rintro ⟨r, hr⟩
             cases hr
           · rintro ⟨h1, h2, _, _⟩
             rcases hguard with h | h
             · exact absurd h1 h
             · simp only at h h2; omega)
        | (intro r hr
           cases hr)
    · have htyp : typ = MessageTypeResize := by
        by_contra h
        exact hguard (Or.inl h)
      have hlen : 4 ≤ payload.length := by
        by_contra h
        exact hguard (Or.inr (by omega))
      match payload, hlen with
      | p0 :: p1 :: p2 :: p3 :: rest, _ =>
        have hres : Message.Resize { Typ := typ, Payload := p0 :: p1 :: p2 :: p3 :: rest } =
            if 256 * p0.val + p1.val < 1 ∨ 256 * p2.val + p3.val < 1 then
              .error "resize dimensions must be greater than 0"
            else .ok { Cols := 256 * p0.val + p1.val, Rows := 256 * p2.val + p3.val } := by
          unfold Message.Resize
          rw [if_neg hguard]
          simp only [slice, List.drop, List.take, Uint16_cons]
        rw [hres]
        by_cases hdim : 256 * p0.val + p1.val < 1 ∨ 256 * p2.val + p3.val < 1
        · rw [if_pos hdim]
          first
            | (constructor
               · rintro ⟨r, hr⟩
                 cases hr
               · rintro ⟨_, _, h3, h4⟩
                 simp only [List.getD_cons_zero, List.getD_cons_succ] at h3 h4
                 omega)
            | (intro r hr
               cases hr)
        · rw [if_neg hdim]
          first
            | (constructor
               · intro _
                 refine ⟨htyp, by simp, ?_, ?_⟩ <;>
                   simp only [List.getD_cons_zero, List.getD_cons_succ] <;> omega
               · intro _
                 exact ⟨_, rfl⟩)
            | (intro r hr
               cases hr
               simp only [List.getD_cons_zero, List.getD_cons_succ])

/-! ## Properties of the deferred-flush writer -/

/-- While the buffer is non-nil a run of `Write` calls only grows the buffer:
the sink and the timestamp are untouched and each call returns its length. -/
theorem writeAll_buffering (inner : InnerWriter) (ps : List (List Byte)) :
    ∀ (buf : List Byte) (t : Nat) (sink : List (List Byte)),
      writeAll inner { c := { Buffer := some buf, MarkedReadyAt := t }, sink := sink } ps =
        ({ c := { Buffer := some (buf ++ ps.flatten), MarkedReadyAt := t }, sink := sink },
         ps.map (fun p => ((p.length : Int), none))) := by
  induction ps with
  | nil => intro buf t sink; simp [writeAll]
  | cons p ps ih =>
    intro buf t sink
    simp only [writeAll, ManualBufferedWriter.Write, ih, List.flatten_cons, List.append_assoc,
      List.map_cons]

/-- Once the buffer is nil it stays nil: every `Write` goes to the sink as it
is, a `Ready` writes nothing, and a timestamp already stamped is kept. -/
theorem runOps_released (inner : InnerWriter) (ops : List Op) :
    ∀ s : WriterState, s.c.Buffer = none →
      (runOps inner s ops).c.Buffer = none ∧
      (runOps inner s ops).sink = s.sink ++ writesOf ops ∧
      (s.c.MarkedReadyAt ≠ 0 → (runOps inner s ops).c.MarkedReadyAt = s.c.MarkedReadyAt) := by
  induction ops with
  | nil => intro s hs; simp [runOps, writesOf, hs]
  | cons op ops ih =>
    intro s hs
    obtain ⟨⟨buf, t⟩, sink⟩ := s
    simp only at hs
    subst hs
    cases op with
    | Write p =>
      have h := ih { c := { Buffer := none, MarkedReadyAt := t }, sink := sink ++ [p] } rfl
      simp only [runOps, List.foldl_cons, Op.apply, ManualBufferedWriter.Write, innerWrite,
        writesOf] at h ⊢
      refine ⟨h.1, ?_, h.2.2⟩
      rw [h.2.1]
      simp
    | Ready now =>
      by_cases ht : t = 0
      · subst ht
        have h := ih { c := { Buffer := none, MarkedReadyAt := now }, sink := sink } rfl
        simp only [runOps, List.foldl_cons, Op.apply, ManualBufferedWriter.Ready,
          writesOf] at h ⊢
        exact ⟨h.1, h.2.1, fun hc => absurd rfl hc⟩
      · have h := ih { c := { Buffer := none, MarkedReadyAt := t }, sink := sink } rfl
        simp only [runOps, List.foldl_cons, Op.apply, ManualBufferedWriter.Ready,
          writesOf, if_neg ht] at h ⊢
        exact h

/-- On a writer whose buffer is nil and whose timestamp is stamped, `Ready`
changes nothing and returns `(0, nil)`. -/
theorem Ready_released (inner : InnerWriter) (s : WriterState) (now : Nat)
    (hb : s.c.Buffer = none) (hm : s.c.MarkedReadyAt ≠ 0) :
    ManualBufferedWriter.Ready inner s now = (s, (0, none)) := by
  obtain ⟨⟨buf, m⟩, sink⟩ := s
  simp only at hb hm
  subst hb
  simp only [ManualBufferedWriter.Ready, if_neg hm]

/-- From a buffering state, a sequence of calls that contains a `Ready` ends
with the buffer released and a sink that received first the buffer grown by
the writes before the first `Ready`, then each later write. -/
theorem runOps_buffering (inner : InnerWriter) (ops : List Op) :
    ∀ (buf : List Byte) (t : Nat) (sink : List (List Byte)),
      (∃ op ∈ ops, op.isReady = true) →
      (runOps inner { c := { Buffer := some buf, MarkedReadyAt := t }, sink := sink } ops).sink =
        sink ++ (buf ++ (writesOf (ops.takeWhile (fun op => !op.isReady))).flatten) ::
          writesOf (ops.dropWhile (fun op => !op.isReady)) := by
  induction ops with
  | nil => intro buf t sink h; simp at h
  | cons op ops ih =>
    intro buf t sink h
    cases op with
    | Write p =>
      have h1 : ∃ op ∈ ops, op.isReady = true := by
        obtain ⟨op, hmem, hop⟩ := h
        rcases List.mem_cons.mp hmem with rfl | hmem
        · simp [Op.isReady] at hop
        · exact ⟨op, hmem, hop⟩
      have h2 := ih (buf ++ p) t sink h1
      simp only [runOps, List.foldl_cons, Op.apply, ManualBufferedWriter.Write] at h2 ⊢
      rw [h2]
      simp [Op.isReady, writesOf, List.takeWhile, List.dropWhile]
    | Ready now =>
      have h2 := runOps_released inner ops
        { c := { Buffer := none, MarkedReadyAt := if t = 0 then now else t },
          sink := sink ++ [buf] } rfl
      have h3 : (ManualBufferedWriter.Ready inner
          { c := { Buffer := some buf, MarkedReadyAt := t }, sink := sink } now).1 =
          { c := { Buffer := none, MarkedReadyAt := if t = 0 then now else t },
            sink := sink ++ [buf] } := by
        by_cases ht : t = 0 <;> simp [ManualBufferedWriter.Ready, innerWrite, ht]
      simp only [runOps, List.foldl_cons, Op.apply] at h2 ⊢
      rw [h3, h2.2.1]
      simp [Op.isReady, writesOf, List.takeWhile, List.dropWhile]

/-- C5: on the writer `Term.Run` constructs, over a sink whose writes all
succeed, after any `Write` calls `p1 .. pn` the sink has received nothing (nor
after any prefix of them), and the `Ready` that follows performs exactly one
write to the sink, of `p1 ++ ... ++ pn`, and returns that length. -/
theorem Ready_flushes_buffered_writes (inner : InnerWriter)
    (hacc : ∀ log p, inner log p = ((p.length : Int), none))
    (ps : List (List Byte)) (now : Nat) :
    (∀ k, (writeAll inner newBuffering (ps.take k)).1.sink = []) ∧
    (writeAll inner newBuffering ps).1.sink = [] ∧
    (ManualBufferedWriter.Ready inner (writeAll inner newBuffering ps).1 now).1.sink
      = [ps.flatten] ∧
    (ManualBufferedWriter.Ready inner (writeAll inner newBuffering ps).1 now).2
      = ((ps.flatten.length : Int), none) := by
  refine ⟨fun k => ?_, ?_, ?_, ?_⟩
  · simp only [newBuffering, writeAll_buffering]
  · simp only [newBuffering, writeAll_buffering]
  · simp [newBuffering, writeAll_buffering, ManualBufferedWriter.Ready, innerWrite]
  · simp [newBuffering, writeAll_buffering, ManualBufferedWriter.Ready, innerWrite, hacc]

/-- C5 at the writes `[1]`, `[2, 3]` over the accepting sink. -/
theorem Ready_flushes_buffered_writes_witness :
    (∀ k, (writeAll acceptingWriter newBuffering ([[1], [2, 3]].take k)).1.sink = []) ∧
    (writeAll acceptingWriter newBuffering [[1], [2, 3]]).1.sink = [] ∧
    (ManualBufferedWriter.Ready acceptingWriter
      (writeAll acceptingWriter newBuffering [[1], [2, 3]]).1 7).1.sink
      = [[[1], [2, 3]].flatten] ∧
    (ManualBufferedWriter.Ready acceptingWriter
      (writeAll acceptingWriter newBuffering [[1], [2, 3]]).1 7).2
      = (([[(1 : Byte)], [2, 3]].flatten.length : Int), none) :=
  Ready_flushes_buffered_writes acceptingWriter (fun _ _ => rfl) [[1], [2, 3]] 7

/-- C6: on a writer in the buffering state (non-nil buffer), a sequence of
`Write` calls with no `Ready` among them never invokes the sink, whatever the
sink is (the sink is as it was after every prefix of the calls), and each
`Write(p)` returns `(len(p), nil)`. -/
theorem Write_without_Ready_buffers (inner : InnerWriter) (s : WriterState)
    (hbuf : s.c.Buffer ≠ none) (ps : List (List Byte)) :
    (∀ k, (writeAll inner s (ps.take k)).1.sink = s.sink) ∧
    (writeAll inner s ps).1.sink = s.sink ∧
    (writeAll inner s ps).2 = ps.map (fun p => ((p.length : Int), none)) := by
  obtain ⟨⟨buf, t⟩, sink⟩ := s
  cases buf with
  | none => exact absurd rfl hbuf
  | some buf =>
    refine ⟨fun k => ?_, ?_, ?_⟩ <;> simp only [writeAll_buffering]

/-- C6 on the writer `Term.Run` constructs, over the accepting sink. -/
theorem Write_without_Ready_buffers_witness :
    (∀ k, (writeAll acceptingWriter newBuffering ([[1], [], [2, 3]].take k)).1.sink
      = newBuffering.sink) ∧
    (writeAll acceptingWriter newBuffering [[1], [], [2, 3]]).1.sink = newBuffering.sink ∧
    (writeAll acceptingWriter newBuffering [[1], [], [2, 3]]).2
      = [[(1 : Byte)], [], [2, 3]].map (fun p => ((p.length : Int), none)) :=
  Write_without_Ready_buffers acceptingWriter newBuffering (by decide) [[1], [], [2, 3]]

/-- C7: for every sequence of `Write(p)` and `Ready()` calls on the writer
`Term.Run` constructs, over a sink that accepts every write, if the sequence
contains a `Ready` then in the end the concatenation of what the sink received
is the concatenation of all `Write` inputs in order; the sink received one
write holding the inputs before the first `Ready`, then every later `Write`
input as a write of its own, unchanged. -/
theorem sink_receives_all_writes (inner : InnerWriter)
    (_hacc : ∀ log p, inner log p = ((p.length : Int), none))
    (ops : List Op) (hready : ∃ op ∈ ops, op.isReady = true) :
    (runOps inner newBuffering ops).sink.flatten = (writesOf ops).flatten ∧
    (runOps inner newBuffering ops).sink =
      (writesOf (ops.takeWhile (fun op => !op.isReady))).flatten ::
        writesOf (ops.dropWhile (fun op => !op.isReady)) := by
  have h := runOps_buffering inner ops [] 0 [] hready
  have hsplit : writesOf ops = writesOf (ops.takeWhile (fun op => !op.isReady)) ++
      writesOf (ops.dropWhile (fun op => !op.isReady)) := by
    clear h hready
    induction ops with
    | nil => simp [writesOf]
    | cons op ops ih =>
      cases op with
      | Write p =>
        have hp : (Op.Write p).isReady = false := rfl
        simp only [writesOf, List.takeWhile, List.dropWhile, hp, Bool.not_false, List.cons_append]
        rw [← ih]
      | Ready now =>
        have hr : (Op.Ready now).isReady = true := rfl
        simp [writesOf, List.takeWhile, List.dropWhile, hr]
  simp only [List.nil_append] at h
  refine ⟨?_, h⟩
  show (runOps inner { c := { Buffer := some [], MarkedReadyAt := 0 }, sink := [] } ops).sink.flatten
    = _
  rw [h, hsplit]
  simp

/-- C7 at two writes, a `Ready`, a write, a second `Ready` and a last write. -/
theorem sink_receives_all_writes_witness :
    (runOps acceptingWriter newBuffering
        [.Write [1], .Write [2, 3], .Ready 7, .Write [4], .Ready 9, .Write [5, 6]]).sink.flatten
      = (writesOf [.Write [1], .Write [2, 3], .Ready 7, .Write [4], .Ready 9,
          .Write [5, 6]]).flatten ∧
    (runOps acceptingWriter newBuffering
        [.Write [1], .Write [2, 3], .Ready 7, .Write [4], .Ready 9, .Write [5, 6]]).sink =
      (writesOf (List.takeWhile (fun op => !op.isReady)
        [.Write [1], .Write [2, 3], .Ready 7, .Write [4], .Ready 9, .Write [5, 6]])).flatten ::
        writesOf (List.dropWhile (fun op => !op.isReady)
          [.Write [1], .Write [2, 3], .Ready 7, .Write [4], .Ready 9, .Write [5, 6]]) :=
  sink_receives_all_writes acceptingWriter (fun _ _ => rfl)
    [.Write [1], .Write [2, 3], .Ready 7, .Write [4], .Ready 9, .Write [5, 6]]
    ⟨.Ready 7, by decide, rfl⟩

/-- C8: once `Ready` has been called (at a clock reading that is not the zero
time), then after any further `Write` and `Ready` calls the buffer is still
nil (the writer never returns to the buffering state), and a later `Ready`
returns `(0, nil)`, writes nothing to the sink and leaves the writer as it is,
`MarkedReadyAt` included, which is the timestamp the first call left: the
first call's clock reading when the writer had never been stamped. -/
theorem Ready_idempotent (inner : InnerWriter) (s0 : WriterState) (t0 : Nat) (ht0 : t0 ≠ 0)
    (ops : List Op) (t : Nat) :
    (runOps inner (ManualBufferedWriter.Ready inner s0 t0).1 ops).c.Buffer = none ∧
    ManualBufferedWriter.Ready inner (runOps inner (ManualBufferedWriter.Ready inner s0 t0).1 ops) t
      = (runOps inner (ManualBufferedWriter.Ready inner s0 t0).1 ops, (0, none)) ∧
    (runOps inner (ManualBufferedWriter.Ready inner s0 t0).1 ops).c.MarkedReadyAt
      = (ManualBufferedWriter.Ready inner s0 t0).1.c.MarkedReadyAt ∧
    (s0.c.MarkedReadyAt = 0 →
      (runOps inner (ManualBufferedWriter.Ready inner s0 t0).1 ops).c.MarkedReadyAt = t0) := by
  have hfirst : (ManualBufferedWriter.Ready inner s0 t0).1.c.Buffer = none ∧
      (ManualBufferedWriter.Ready inner s0 t0).1.c.MarkedReadyAt ≠ 0 ∧
      (s0.c.MarkedReadyAt = 0 → (ManualBufferedWriter.Ready inner s0 t0).1.c.MarkedReadyAt = t0) := by
    obtain ⟨⟨buf, m⟩, sink⟩ := s0
    by_cases hm : m = 0 <;> cases buf <;>
      simp [ManualBufferedWriter.Ready, innerWrite, hm, ht0]
  obtain ⟨hb, hm, hstamp⟩ := hfirst
  obtain ⟨h1, _, h3⟩ := runOps_released inner ops (ManualBufferedWriter.Ready inner s0 t0).1 hb
  have h3 := h3 hm
  refine ⟨h1, ?_, h3, fun hz => by rw [h3]; exact hstamp hz⟩
  have hne : (runOps inner (ManualBufferedWriter.Ready inner s0 t0).1 ops).c.MarkedReadyAt ≠ 0 := by
    rw [h3]; exact hm
  exact Ready_released inner _ t h1 hne

/-- C8 on the writer `Term.Run` constructs after two writes: first `Ready` at
clock reading 7, then a write and a `Ready`, then the `Ready` at 11. -/
theorem Ready_idempotent_witness :
    (runOps acceptingWriter (ManualBufferedWriter.Ready acceptingWriter
      (runOps acceptingWriter newBuffering [.Write [1], .Write [2]]) 7).1
        [.Write [3], .Ready 9]).c.Buffer = none ∧
    ManualBufferedWriter.Ready acceptingWriter
      (runOps acceptingWriter (ManualBufferedWriter.Ready acceptingWriter
        (runOps acceptingWriter newBuffering [.Write [1], .Write [2]]) 7).1
          [.Write [3], .Ready 9]) 11
      = (runOps acceptingWriter (ManualBufferedWriter.Ready acceptingWriter
          (runOps acceptingWriter newBuffering [.Write [1], .Write [2]]) 7).1
            [.Write [3], .Ready 9], (0, none)) ∧
    (runOps acceptingWriter (ManualBufferedWriter.Ready acceptingWriter
      (runOps acceptingWriter newBuffering [.Write [1], .Write [2]]) 7).1
        [.Write [3], .Ready 9]).c.MarkedReadyAt
      = (ManualBufferedWriter.Ready acceptingWriter
          (runOps acceptingWriter newBuffering [.Write [1], .Write [2]]) 7).1.c.MarkedReadyAt ∧
    ((runOps acceptingWriter newBuffering [.Write [1], .Write [2]]).c.MarkedReadyAt = 0 →
      (runOps acceptingWriter (ManualBufferedWriter.Ready acceptingWriter
        (runOps acceptingWriter newBuffering [.Write [1], .Write [2]]) 7).1
          [.Write [3], .Ready 9]).c.MarkedReadyAt = 7) :=
  Ready_idempotent acceptingWriter (runOps acceptingWriter newBuffering [.Write [1], .Write [2]])
    7 (by decide) [.Write [3], .Ready 9] 11

/-! ## Properties of the bus registry -/

/-- Reading the key just assigned gives the assigned value. -/
theorem mapGet_mapSet_self {V : Type} (m : List (String × V)) (k : String) (v : V) :
    mapGet (mapSet m k v) k = some v := by
  simp [mapSet, mapGet]

/-- Deleting a key leaves the other keys as they were. -/
theorem mapGet_mapDelete_ne {V : Type} (m : List (String × V)) (k k1 : String) (h : k1 ≠ k) :
    mapGet (mapDelete m k) k1 = mapGet m k1 := by
  induction m with
  | nil => rfl
  | cons e m ih =>
    obtain ⟨ke, ve⟩ := e
    by_cases hk : ke = k
    · have hne : ke ≠ k1 := fun hc => h (hc.symm.trans hk)
      simp only [mapDelete, List.filter, hk, ne_eq, not_true_eq_false, decide_False] at ih ⊢
      rw [ih]
      simp only [mapGet]
      rw [if_neg (by rw [← hk]; exact hne)]
    · simp only [mapDelete, List.filter, hk, ne_eq, not_false_eq_true, decide_True, mapGet] at ih ⊢
      rw [ih]

/-- A deleted key is missing. -/
theorem mapGet_mapDelete_self {V : Type} (m : List (String × V)) (k : String) :
    mapGet (mapDelete m k) k = none := by
  induction m with
  | nil => rfl
  | cons e m ih =>
    obtain ⟨ke, ve⟩ := e
    by_cases hk : ke = k
    · simp only [mapDelete, List.filter, hk, ne_eq, not_true_eq_false, decide_False] at ih ⊢
      exact ih
    · simp only [mapDelete, List.filter, hk, ne_eq, not_false_eq_true, decide_True, mapGet,
        if_neg hk] at ih ⊢
      exact ih

/-- Assigning a key leaves the other keys as they were. -/
theorem mapGet_mapSet_ne {V : Type} (m : List (String × V)) (k k1 : String) (v : V)
    (h : k1 ≠ k) : mapGet (mapSet m k v) k1 = mapGet m k1 := by
  simp only [mapSet, mapGet]
  rw [if_neg (fun hc => h hc.symm)]
  exact mapGet_mapDelete_ne m k k1 h

/-- Xor-ing a byte sequence with itself and or-ing the results gives 0. -/
theorem foldl_xor_self (x : List Byte) :
    (List.zipWith (fun a b => a.val ^^^ b.val) x x).foldl (fun acc d => acc ||| d) 0 = 0 := by
  induction x with
  | nil => rfl
  | cons a x ih => simpa [List.zipWith] using ih

/-- A token compares equal to itself. -/
theorem ConstantTimeCompare_self (x : List Byte) : ConstantTimeCompare x x = 1 := by
  unfold ConstantTimeCompare
  rw [if_neg (fun h => h rfl)]
  simp only [foldl_xor_self, if_true]

/-- A `process` request with a non-empty `processId` that carries the
(non-empty) bus token and whose upgrade succeeds registers a new session. -/
theorem HandleWebSocketConnection_process (b : Bus) (processID : String) (conn : Conn)
    (htok : b.token ≠ []) (hpid : processID ≠ "") :
    b.HandleWebSocketConnection
        { token := b.token, processID := processID, connType := ConnectionTypeProcess }
        (.ok conn) =
      ({ b with processes := mapSet b.processes processID (NewForProcess conn processID) },
       .producer conn (NewForProcess conn processID)) := by
  have hvalid : ConnectionType.IsValid ConnectionTypeProcess = true := by decide
  have hne : ConnectionTypeProcess ≠ ConnectionTypeClient := by decide
  simp [Bus.HandleWebSocketConnection, htok, hpid, hvalid, hne, ConstantTimeCompare_self]

/-- A `process` request with an empty token or an empty `processId` is answered
400 and the registry is left as it is. -/
theorem HandleWebSocketConnection_process_bad (b : Bus) (processID : String)
    (upgrade : UpgradeResult) (h : b.token = [] ∨ processID = "") :
    b.HandleWebSocketConnection
        { token := b.token, processID := processID, connType := ConnectionTypeProcess }
        upgrade = (b, .responded StatusBadRequest) := by
  unfold Bus.HandleWebSocketConnection
  rw [if_pos]
  rcases h with h | h
  · exact Or.inl h
  · exact Or.inr (Or.inr h)

/-- The effect of an attach event, case by case. -/
theorem World.step_attach (w : World) (conn : Conn) (processID : String) :
    w.step (.attach conn processID) =
      if conn ∈ w.running.map Prod.fst then none
      else if w.bus.token = [] ∨ processID = "" then some w
      else some
        { bus := { w.bus with
            processes := mapSet w.bus.processes processID (NewForProcess conn processID) },
          running := w.running ++ [(conn, processID)] } := by
  simp only [World.step]
  by_cases hc : conn ∈ w.running.map Prod.fst
  · rw [if_pos hc, if_pos hc]
  · rw [if_neg hc, if_neg hc]
    by_cases hbad : w.bus.token = [] ∨ processID = ""
    · rw [if_pos hbad, HandleWebSocketConnection_process_bad w.bus processID _ hbad]
    · rw [if_neg hbad]
      have htok : w.bus.token ≠ [] := fun h => hbad (Or.inl h)
      have hpid : processID ≠ "" := fun h => hbad (Or.inr h)
      rw [HandleWebSocketConnection_process w.bus processID conn htok hpid]

/-- A bus just created is consistent. -/
theorem World.init_consistent (token : List Byte) : (World.init token).Consistent where
  entry_attached := by
    intro processID s h
    simp [World.init, NewBus, Bus.getProcess, mapGet] at h
  attached_entry := by
    intro conn processID h
    simp [World.init] at h
  conn_unique := by
    intro conn p1 p2 h
    simp [World.init] at h
  pid_unique := by
    intro c1 c2 processID h
    simp [World.init] at h

/-- An accepted attach with a `processId` no attached producer holds keeps the
registry and the attached producers in agreement. -/
theorem World.Consistent.attach {w : World} (hw : w.Consistent) (conn : Conn)
    (processID : String) (hconn : conn ∉ w.running.map Prod.fst)
    (hpid : processID ∉ w.running.map Prod.snd) :
    World.Consistent
      { bus := { w.bus with
          processes := mapSet w.bus.processes processID (NewForProcess conn processID) },
        running := w.running ++ [(conn, processID)] } where
  entry_attached := by
    intro p s h
    simp only [Bus.getProcess] at h
    by_cases hp : p = processID
    · subst hp
      rw [mapGet_mapSet_self] at h
      exact ⟨conn, by simp, (Option.some.inj h).symm⟩
    · rw [mapGet_mapSet_ne _ _ _ _ hp] at h
      obtain ⟨c, hc, hs⟩ := hw.entry_attached p s h
      exact ⟨c, List.mem_append_left _ hc, hs⟩
  attached_entry := by
    intro c p h
    simp only [Bus.getProcess]
    rcases List.mem_append.mp h with ha | ha
    · clear h
      have hp : p ≠ processID := by
        intro hp
        subst hp
        exact hpid (List.mem_map.mpr ⟨(c, p), ha, rfl⟩)
      rw [mapGet_mapSet_ne _ _ _ _ hp]
      exact hw.attached_entry c p ha
    · clear h
      simp only [List.mem_singleton, Prod.mk.injEq] at ha
      obtain ⟨rfl, rfl⟩ := ha
      exact mapGet_mapSet_self _ _ _
  conn_unique := by
    intro c p1 p2 h1 h2
    rcases List.mem_append.mp h1 with ha | ha <;> rcases List.mem_append.mp h2 with hb | hb <;>
      clear h1 h2
    · exact hw.conn_unique c p1 p2 ha hb
    · simp only [List.mem_singleton, Prod.mk.injEq] at hb
      exact absurd (List.mem_map.mpr ⟨(c, p1), ha, hb.1⟩) hconn
    · simp only [List.mem_singleton, Prod.mk.injEq] at ha
      exact absurd (List.mem_map.mpr ⟨(c, p2), hb, ha.1⟩) hconn
    · simp only [List.mem_singleton, Prod.mk.injEq] at ha hb
      rw [ha.2, hb.2]
  pid_unique := by
    intro c1 c2 p h1 h2
    rcases List.mem_append.mp h1 with ha | ha <;> rcases List.mem_append.mp h2 with hb | hb <;>
      clear h1 h2
    · exact hw.pid_unique c1 c2 p ha hb
    · simp only [List.mem_singleton, Prod.mk.injEq] at hb
      exact absurd (List.mem_map.mpr ⟨(c1, p), ha, hb.2⟩) hpid
    · simp only [List.mem_singleton, Prod.mk.injEq] at ha
      exact absurd (List.mem_map.mpr ⟨(c2, p), hb, ha.2⟩) hpid
    · simp only [List.mem_singleton, Prod.mk.injEq] at ha hb
      rw [ha.1, hb.1]

/-- The end of an attached producer's loop keeps the registry and the attached
producers in agreement. -/
theorem World.Consistent.disconnect {w : World} (hw : w.Consistent) (conn : Conn)
    (processID : String) (hmem : (conn, processID) ∈ w.running) :
    World.Consistent
      { bus := w.bus.producerExit processID,
        running := w.running.filter (fun e => decide (e.1 ≠ conn)) } where
  entry_attached := by
    intro p s h
    simp only [Bus.getProcess, Bus.producerExit] at h
    by_cases hp : p = processID
    · subst hp
      rw [mapGet_mapDelete_self] at h
      cases h
    · rw [mapGet_mapDelete_ne _ _ _ hp] at h
      obtain ⟨c, hc, hs⟩ := hw.entry_attached p s h
      refine ⟨c, ?_, hs⟩
      have hcne : c ≠ conn := by
        intro hcc
        subst hcc
        exact hp (hw.conn_unique c p processID hc hmem)
      simp [List.mem_filter, hc, hcne]
  attached_entry := by
    intro c p h
    dsimp only at h
    simp only [List.mem_filter, ne_eq, decide_eq_true_eq] at h
    have hp : p ≠ processID := by
      intro hp
      subst hp
      exact h.2 (hw.pid_unique c conn p h.1 hmem)
    simp only [Bus.getProcess, Bus.producerExit]
    rw [mapGet_mapDelete_ne _ _ _ hp]
    exact hw.attached_entry c p h.1
  conn_unique := by
    intro c p1 p2 h1 h2
    dsimp only at h1 h2
    exact hw.conn_unique c p1 p2 (List.mem_filter.mp h1).1 (List.mem_filter.mp h2).1
  pid_unique := by
    intro c1 c2 p h1 h2
    dsimp only at h1 h2
    exact hw.pid_unique c1 c2 p (List.mem_filter.mp h1).1 (List.mem_filter.mp h2).1

/-- Along a sequence of events in which every attach uses a `processId` no
attached producer holds, agreement of registry and attached producers is
kept. -/
theorem World.Consistent.run (evs : List Event) :
    ∀ w w1 : World, w.Consistent → w.run evs = some w1 → w.exclusive evs = true →
      w1.Consistent := by
  induction evs with
  | nil =>
    intro w w1 hw hrun _
    simp only [World.run, Option.some.injEq] at hrun
    exact hrun ▸ hw
  | cons e evs ih =>
    intro w w1 hw hrun hex
    simp only [World.run] at hrun
    simp only [World.exclusive, Bool.and_eq_true] at hex
    cases hstep : w.step e with
    | none => rw [hstep] at hrun; cases hrun
    | some w2 =>
      rw [hstep] at hrun
      have hex2 : w2.exclusive evs = true := by
        have := hex.2
        rw [hstep] at this
        exact this
      refine ih w2 w1 ?_ hrun hex2
      cases e with
      | attach conn processID =>
        have hpid : processID ∉ w.running.map Prod.snd := by
          have := hex.1
          simpa using this
        rw [World.step_attach] at hstep
        by_cases hc : conn ∈ w.running.map Prod.fst
        · rw [if_pos hc] at hstep; cases hstep
        · rw [if_neg hc] at hstep
          by_cases hbad : w.bus.token = [] ∨ processID = ""
          · rw [if_pos hbad] at hstep
            cases hstep
            exact hw
          · rw [if_neg hbad] at hstep
            cases hstep
            exact hw.attach conn processID hc hpid
      | disconnect conn =>
        simp only [World.step] at hstep
        cases hfind : w.running.find? (fun e => decide (e.1 = conn)) with
        | none => rw [hfind] at hstep; cases hstep
        | some e1 =>
          obtain ⟨c1, p1⟩ := e1
          rw [hfind] at hstep
          cases hstep
          have hc1 : c1 = conn := by
            have := List.find?_some hfind
            simpa using this
          have hmem : (c1, p1) ∈ w.running := List.mem_of_find?_eq_some hfind
          subst hc1
          exact hw.disconnect c1 p1 hmem

/-- C9, as stated, fails: on a bus with token `[7]` whose registry holds the
session of producer 1 under "p", a second `process` request with the token and
"p", upgraded to connection 2, is not rejected; it is registered, and the
entry of "p" is then the session of producer 2. -/
theorem second_producer_not_rejected :
    ((NewBus [7]).HandleWebSocketConnection
        { token := [7], processID := "p", connType := "process" } (.ok 1)).1.getProcess "p"
      = some (NewForProcess 1 "p") ∧
    (((NewBus [7]).HandleWebSocketConnection
        { token := [7], processID := "p", connType := "process" } (.ok 1)).1.HandleWebSocketConnection
        { token := [7], processID := "p", connType := "process" } (.ok 2)).2
      = .producer 2 (NewForProcess 2 "p") ∧
    ((((NewBus [7]).HandleWebSocketConnection
        { token := [7], processID := "p", connType := "process" } (.ok 1)).1.HandleWebSocketConnection
        { token := [7], processID := "p", connType := "process" } (.ok 2)).1.getProcess "p").map
          (fun session => session.producer)
      = some 2 := by
  decide

/-- C9, amended: a `process` request with a non-empty `processId` and the
(non-empty) bus token, whose upgrade succeeds, is accepted even when the
registry already holds a session for that `processId`: the handler enters the
producer loop with a new session whose producer is the new connection, the
registry entry of the `processId` is replaced by that session, and the entries
of the other `processId`s are unchanged. -/
theorem producer_attach_replaces_entry (b : Bus) (r : Request) (conn : Conn)
    (first : ProcessConnections)
    (htok : r.token ≠ []) (hauth : r.token = b.token)
    (htype : r.connType = ConnectionTypeProcess) (hpid : r.processID ≠ "")
    (_hheld : b.getProcess r.processID = some first) :
    (b.HandleWebSocketConnection r (.ok conn)).2
      = .producer conn (NewForProcess conn r.processID) ∧
    (b.HandleWebSocketConnection r (.ok conn)).1.getProcess r.processID
      = some (NewForProcess conn r.processID) ∧
    (NewForProcess conn r.processID).producer = conn ∧
    (b.HandleWebSocketConnection r (.ok conn)).1.token = b.token ∧
    (∀ other, other ≠ r.processID →
      (b.HandleWebSocketConnection r (.ok conn)).1.getProcess other = b.getProcess other) := by
  obtain ⟨token, processID, connType⟩ := r
  simp only at htok hauth htype hpid
  subst hauth htype
  rw [HandleWebSocketConnection_process b processID conn htok hpid]
  refine ⟨rfl, ?_, rfl, rfl, ?_⟩
  · exact mapGet_mapSet_self _ _ _
  · intro other hne
    exact mapGet_mapSet_ne _ _ _ _ hne

/-- C9, amended, at a bus whose registry holds the session of producer 1 under
"p" and another session under "q": connection 2 attaches with "p". -/
theorem producer_attach_replaces_entry_witness :
    ((Bus.mk [7] [("p", NewForProcess 1 "p"), ("q", NewForProcess 5 "q")]).HandleWebSocketConnection
        { token := [7], processID := "p", connType := "process" } (.ok 2)).2
      = .producer 2 (NewForProcess 2 "p") ∧
    ((Bus.mk [7] [("p", NewForProcess 1 "p"), ("q", NewForProcess 5 "q")]).HandleWebSocketConnection
        { token := [7], processID := "p", connType := "process" } (.ok 2)).1.getProcess "p"
      = some (NewForProcess 2 "p") ∧
    (NewForProcess 2 "p").producer = 2 ∧
    ((Bus.mk [7] [("p", NewForProcess 1 "p"), ("q", NewForProcess 5 "q")]).HandleWebSocketConnection
        { token := [7], processID := "p", connType := "process" } (.ok 2)).1.token = [7] ∧
    (∀ other, other ≠ "p" →
      ((Bus.mk [7] [("p", NewForProcess 1 "p"),
          ("q", NewForProcess 5 "q")]).HandleWebSocketConnection
        { token := [7], processID := "p", connType := "process" } (.ok 2)).1.getProcess other
      = (Bus.mk [7] [("p", NewForProcess 1 "p"), ("q", NewForProcess 5 "q")]).getProcess other) :=
  producer_attach_replaces_entry (Bus.mk [7] [("p", NewForProcess 1 "p"), ("q", NewForProcess 5 "q")])
    { token := [7], processID := "p", connType := "process" } 2 (NewForProcess 1 "p")
    (by decide) rfl rfl (by decide) (by decide)

/-- C10, as stated, fails: after producer 1 and then producer 2 attach with
"p" the entry of "p" is the session of producer 2 while producer 1 is still
attached, and once producer 1 disconnects the registry has no entry for "p"
although producer 2, which attached with "p", is still attached. -/
theorem registry_loses_attached_producer :
    ((World.init [7]).run [.attach 1 "p", .attach 2 "p"]).map
        (fun w => ((w.bus.getProcess "p").map (fun session => session.producer), w.running))
      = some (some 2, [(1, "p"), (2, "p")]) ∧
    ((World.init [7]).run [.attach 1 "p", .attach 2 "p", .disconnect 1]).map
        (fun w => (w.bus.getProcess "p", w.running))
      = some (none, [(2, "p")]) := by
  decide

/-- C10, amended: in every state of the bus reached by producer-attach and
producer-disconnect events in which no producer attaches with a `processId`
that a still attached producer holds, the registry has an entry for a
`processId` exactly when a producer that attached with it is still attached,
and that entry is that producer's session. -/
theorem registry_iff_attached (token : List Byte) (evs : List Event) (w : World)
    (hrun : (World.init token).run evs = some w)
    (hex : (World.init token).exclusive evs = true) (processID : String) :
    ((∃ session, w.bus.getProcess processID = some session) ↔
      ∃ conn, (conn, processID) ∈ w.running) ∧
    (∀ conn, (conn, processID) ∈ w.running →
      w.bus.getProcess processID = some (NewForProcess conn processID)) ∧
    (∀ session, w.bus.getProcess processID = some session →
      (session.producer, processID) ∈ w.running) := by
  have hw : w.Consistent :=
    World.Consistent.run evs (World.init token) w (World.init_consistent token) hrun hex
  refine ⟨⟨?_, ?_⟩, ?_, ?_⟩
  · rintro ⟨session, hs⟩
    obtain ⟨conn, hmem, _⟩ := hw.entry_attached processID session hs
    exact ⟨conn, hmem⟩
  · rintro ⟨conn, hmem⟩
    exact ⟨_, hw.attached_entry conn processID hmem⟩
  · exact fun conn hmem => hw.attached_entry conn processID hmem
  · intro session hs
    obtain ⟨conn, hmem, heq⟩ := hw.entry_attached processID session hs
    rw [heq]
    exact hmem

/-- C10, amended, at a run in which "p" is held by producer 1, released, and
taken again by producer 3 while producer 2 holds "q". -/
theorem registry_iff_attached_witness :
    ((∃ session, (World.mk (Bus.mk [7] [("p", NewForProcess 3 "p"), ("q", NewForProcess 2 "q")])
        [(2, "q"), (3, "p")]).bus.getProcess "p" = some session) ↔
      ∃ conn, (conn, "p") ∈ (World.mk
        (Bus.mk [7] [("p", NewForProcess 3 "p"), ("q", NewForProcess 2 "q")])
        [(2, "q"), (3, "p")]).running) ∧
    (∀ conn, (conn, "p") ∈ (World.mk
        (Bus.mk [7] [("p", NewForProcess 3 "p"), ("q", NewForProcess 2 "q")])
        [(2, "q"), (3, "p")]).running →
      (World.mk (Bus.mk [7] [("p", NewForProcess 3 "p"), ("q", NewForProcess 2 "q")])
        [(2, "q"), (3, "p")]).bus.getProcess "p" = some (NewForProcess conn "p")) ∧
    (∀ session, (World.mk (Bus.mk [7] [("p", NewForProcess 3 "p"), ("q", NewForProcess 2 "q")])
        [(2, "q"), (3, "p")]).bus.getProcess "p" = some session →
      (session.producer, "p") ∈ (World.mk
        (Bus.mk [7] [("p", NewForProcess 3 "p"), ("q", NewForProcess 2 "q")])
        [(2, "q"), (3, "p")]).running) :=
  registry_iff_attached [7]
    [.attach 1 "p", .attach 2 "q", .disconnect 1, .attach 3 "p"]
    (World.mk (Bus.mk [7] [("p", NewForProcess 3 "p"), ("q", NewForProcess 2 "q")])
      [(2, "q"), (3, "p")])
    (by decide) (by decide) "p"

/-! ## Properties of the HTTP surface of the bus -/

/-- Two numbers whose bitwise or is 0 are both 0. -/
theorem lor_eq_zero (a d : Nat) (h : a ||| d = 0) : a = 0 ∧ d = 0 := by
  constructor
  · apply Nat.eq_of_testBit_eq
    intro i
    have hi := congrArg (fun n => n.testBit i) h
    simp only [Nat.testBit_or, Nat.zero_testBit, Bool.or_eq_false_iff] at hi
    rw [hi.1, Nat.zero_testBit]
  · apply Nat.eq_of_testBit_eq
    intro i
    have hi := congrArg (fun n => n.testBit i) h
    simp only [Nat.testBit_or, Nat.zero_testBit, Bool.or_eq_false_iff] at hi
    rw [hi.2, Nat.zero_testBit]

/-- Or-ing a list of numbers onto an accumulator gives 0 only from 0 and only
when every number is 0. -/
theorem foldl_lor_eq_zero (l : List Nat) :
    ∀ acc, l.foldl (fun acc d => acc ||| d) acc = 0 → acc = 0 ∧ ∀ d ∈ l, d = 0 := by
  induction l with
  | nil => intro acc h; exact ⟨h, by simp⟩
  | cons a l ih =>
    intro acc h
    obtain ⟨h1, h2⟩ := ih (acc ||| a) h
    obtain ⟨h3, h4⟩ := lor_eq_zero acc a h1
    refine ⟨h3, ?_⟩
    intro d hd
    rcases List.mem_cons.mp hd with rfl | hd
    · exact h4
    · exact h2 d hd

/-- Byte sequences of equal length whose pairwise xor is 0 throughout are
equal. -/
theorem eq_of_zipWith_xor_zero (x : List Byte) :
    ∀ y : List Byte, x.length = y.length →
      (∀ d ∈ List.zipWith (fun a b => a.val ^^^ b.val) x y, d = 0) → x = y := by
  induction x with
  | nil =>
    intro y hlen _
    cases y with
    | nil => rfl
    | cons b y => simp at hlen
  | cons a x ih =>
    intro y hlen h
    cases y with
    | nil => simp at hlen
    | cons b y =>
      have hab : a.val ^^^ b.val = 0 := h _ (by simp [List.zipWith])
      have hxy : x = y := by
        apply ih y (by simpa using hlen)
        intro d hd
        exact h d (by simp only [List.zipWith, List.mem_cons]; exact Or.inr hd)
      have : a = b := Fin.ext (Nat.xor_eq_zero.mp hab)
      rw [this, hxy]

/-- The comparison `subtle.ConstantTimeCompare` answers 1 exactly on equal
byte sequences. -/
theorem ConstantTimeCompare_eq_one_iff (x y : List Byte) :
    ConstantTimeCompare x y = 1 ↔ x = y := by
  constructor
  · intro h
    unfold ConstantTimeCompare at h
    by_cases hlen : x.length ≠ y.length
    · rw [if_pos hlen] at h
      cases h
    · rw [if_neg hlen] at h
      have hlen1 : x.length = y.length := by
        by_contra hc
        exact hlen hc
      by_cases hv : (List.zipWith (fun a b => a.val ^^^ b.val) x y).foldl
          (fun acc d => acc ||| d) 0 = 0
      · exact eq_of_zipWith_xor_zero x y hlen1 (foldl_lor_eq_zero _ 0 hv).2
      · simp only [hv, if_false] at h
        cases h
  · intro h
    rw [h]
    exact ConstantTimeCompare_self y

/-- A request with an empty token, an unrecognized type or an empty
`processId` is answered 400, whatever the bus holds. -/
theorem HandleWebSocketConnection_bad (b : Bus) (r : Request) (upgrade : UpgradeResult)
    (h : r.token = [] ∨ r.connType.IsValid = false ∨ r.processID = "") :
    b.HandleWebSocketConnection r upgrade = (b, .responded StatusBadRequest) := by
  unfold Bus.HandleWebSocketConnection
  rw [if_pos h]

/-- A well-formed request whose token differs from the bus token is answered
401, whatever the bus holds. -/
theorem HandleWebSocketConnection_unauthorized (b : Bus) (r : Request) (upgrade : UpgradeResult)
    (h : ¬ (r.token = [] ∨ r.connType.IsValid = false ∨ r.processID = ""))
    (htok : r.token ≠ b.token) :
    b.HandleWebSocketConnection r upgrade = (b, .responded StatusUnauthorized) := by
  unfold Bus.HandleWebSocketConnection
  rw [if_neg h, if_pos]
  intro hc
  exact htok ((ConstantTimeCompare_eq_one_iff _ _).mp hc)

/-- A type is recognized exactly when it is `client` or `process`. -/
theorem IsValid_iff (c : ConnectionType) :
    ConnectionType.IsValid c = true ↔ (c = ConnectionTypeClient ∨ c = ConnectionTypeProcess) := by
  simp [ConnectionType.IsValid]

/-- C11: a request with a non-empty token equal to the bus token, type
`client` and a non-empty `processId` for which the registry has no session is
answered 404 without an upgrade (whatever an upgrade would have given), and
the registry is unchanged: it still has no session for that `processId`. -/
theorem client_unknown_process_404 (b : Bus) (r : Request) (upgrade : UpgradeResult)
    (htok : r.token ≠ []) (hauth : r.token = b.token)
    (htype : r.connType = ConnectionTypeClient) (hpid : r.processID ≠ "")
    (hnone : b.getProcess r.processID = none) :
    b.HandleWebSocketConnection r upgrade = (b, .responded StatusNotFound) ∧
    (b.HandleWebSocketConnection r upgrade).1.processes = b.processes ∧
    (b.HandleWebSocketConnection r upgrade).1.getProcess r.processID = none := by
  have hres : b.HandleWebSocketConnection r upgrade = (b, .responded StatusNotFound) := by
    have hvalid : r.connType.IsValid = true := (IsValid_iff _).mpr (Or.inl htype)
    have hgood : ¬ (r.token = [] ∨ r.connType.IsValid = false ∨ r.processID = "") := by
      rintro (h | h | h)
      · exact htok h
      · rw [hvalid] at h; cases h
      · exact hpid h
    unfold Bus.HandleWebSocketConnection
    rw [if_neg hgood, if_neg, if_pos ⟨htype, hnone⟩]
    intro hc
    exact hc ((ConstantTimeCompare_eq_one_iff _ _).mpr hauth)
  rw [hres]
  exact ⟨rfl, rfl, hnone⟩

/-- C11 on a bus that holds a session for "p" only: a client asks for "q". -/
theorem client_unknown_process_404_witness :
    (Bus.mk [7] [("p", NewForProcess 1 "p")]).HandleWebSocketConnection
        { token := [7], processID := "q", connType := "client" } (.ok 2)
      = (Bus.mk [7] [("p", NewForProcess 1 "p")], .responded StatusNotFound) ∧
    ((Bus.mk [7] [("p", NewForProcess 1 "p")]).HandleWebSocketConnection
        { token := [7], processID := "q", connType := "client" } (.ok 2)).1.processes
      = (Bus.mk [7] [("p", NewForProcess 1 "p")]).processes ∧
    ((Bus.mk [7] [("p", NewForProcess 1 "p")]).HandleWebSocketConnection
        { token := [7], processID := "q", connType := "client" } (.ok 2)).1.getProcess "q"
      = none :=
  client_unknown_process_404 (Bus.mk [7] [("p", NewForProcess 1 "p")])
    { token := [7], processID := "q", connType := "client" } (.ok 2)
    (by decide) rfl rfl (by decide) (by decide)

/-- C12, as stated, fails: on a bus with token `[7]`, a `process` request for
"p" that carries the token `[7]` but is no WebSocket handshake, so that the
upgrade fails after the library has replied 400, is answered 400 although its
type is recognized, its `processId` non-empty and its token the bus token.
Also, on a bus whose token is empty a request with the (empty) bus token is
answered 400. -/
theorem valid_request_answered_400 :
    (Bus.mk [7] []).HandleWebSocketConnection
        { token := [7], processID := "p", connType := "process" } (.failed (some 400) false)
      = (Bus.mk [7] [], .responded StatusBadRequest) ∧
    (Bus.mk [] []).HandleWebSocketConnection
        { token := [], processID := "p", connType := "process" } (.ok 1)
      = (Bus.mk [] [], .responded StatusBadRequest) := by
  decide

/-- C12, amended: a request whose token is empty, whose `processId` is empty or
whose type is neither `process` nor `client` is answered 400; otherwise a
request whose token is not the bus token is answered 401; in both cases there
is no upgrade and the registry is unchanged. A request with a recognized type,
a non-empty `processId` and a non-empty token equal to the bus token passes
both checks: it is answered 404 when it is a `client` request for a
`processId` without a session, and otherwise, when the upgrade succeeds, it is
answered neither 400 nor 401 (the handler enters the subscriber or the
producer flow). -/
theorem request_checks_400_401 (b : Bus) (r : Request) (upgrade : UpgradeResult) :
    ((r.token = [] ∨ r.processID = "" ∨
        (r.connType ≠ ConnectionTypeProcess ∧ r.connType ≠ ConnectionTypeClient)) →
      b.HandleWebSocketConnection r upgrade = (b, .responded StatusBadRequest)) ∧
    (¬ (r.token = [] ∨ r.processID = "" ∨
        (r.connType ≠ ConnectionTypeProcess ∧ r.connType ≠ ConnectionTypeClient)) →
      r.token ≠ b.token →
      b.HandleWebSocketConnection r upgrade = (b, .responded StatusUnauthorized)) ∧
    ((r.connType = ConnectionTypeProcess ∨ r.connType = ConnectionTypeClient) →
      r.processID ≠ "" → r.token ≠ [] → r.token = b.token →
      ((r.connType = ConnectionTypeClient ∧ b.getProcess r.processID = none) →
        b.HandleWebSocketConnection r upgrade = (b, .responded StatusNotFound)) ∧
      (¬ (r.connType = ConnectionTypeClient ∧ b.getProcess r.processID = none) →
        ∀ conn,
          ((b.HandleWebSocketConnection r (.ok conn)).2
              = .client conn (b.getProcess r.processID) ∨
            (b.HandleWebSocketConnection r (.ok conn)).2
              = .producer conn (NewForProcess conn r.processID)) ∧
          (b.HandleWebSocketConnection r (.ok conn)).2 ≠ .responded StatusBadRequest ∧
          (b.HandleWebSocketConnection r (.ok conn)).2 ≠ .responded StatusUnauthorized)) := by
  have hinvalid : r.connType.IsValid = false ↔
      (r.connType ≠ ConnectionTypeProcess ∧ r.connType ≠ ConnectionTypeClient) := by
    rw [← Bool.not_eq_true, IsValid_iff]
    constructor
    · intro h
      exact ⟨fun hc => h (Or.inr hc), fun hc => h (Or.inl hc)⟩
    · rintro ⟨h1, h2⟩ (hc | hc)
      · exact h2 hc
      · exact h1 hc
  refine ⟨?_, ?_, ?_⟩
  · intro h
    apply HandleWebSocketConnection_bad
    rcases h with h | h | h
    · exact Or.inl h
    · exact Or.inr (Or.inr h)
    · exact Or.inr (Or.inl (hinvalid.mpr h))
  · intro h htok
    apply HandleWebSocketConnection_unauthorized _ _ _ _ htok
    rintro (hc | hc | hc)
    · exact h (Or.inl hc)
    · exact h (Or.inr (Or.inr (hinvalid.mp hc)))
    · exact h (Or.inr (Or.inl hc))
  · intro htype hpid htok hauth
    have hgood : ¬ (r.token = [] ∨ r.connType.IsValid = false ∨ r.processID = "") := by
      rintro (hc | hc | hc)
      · exact htok hc
      · rcases htype with ht | ht
        · exact (hinvalid.mp hc).1 ht
        · exact (hinvalid.mp hc).2 ht
      · exact hpid hc
    have hcmp : ¬ (ConstantTimeCompare r.token b.token ≠ 1) :=
      fun hc => hc ((ConstantTimeCompare_eq_one_iff _ _).mpr hauth)
    constructor
    · intro h404
      unfold Bus.HandleWebSocketConnection
      rw [if_neg hgood, if_neg hcmp, if_pos h404]
    · intro h404 conn
      have hres : (b.HandleWebSocketConnection r (.ok conn)).2
            = .client conn (b.getProcess r.processID) ∨
          (b.HandleWebSocketConnection r (.ok conn)).2
            = .producer conn (NewForProcess conn r.processID) := by
        unfold Bus.HandleWebSocketConnection
        rw [if_neg hgood, if_neg hcmp, if_neg h404]
        simp only
        by_cases hcl : r.connType = ConnectionTypeClient
        · rw [if_pos hcl]
          exact Or.inl rfl
        · rw [if_neg hcl]
          have hpr : r.connType = ConnectionTypeProcess := by
            rcases htype with ht | ht
            · exact ht
            · exact absurd ht hcl
          rw [if_pos hpr]
          exact Or.inr rfl
      refine ⟨hres, ?_, ?_⟩ <;> rcases hres with hres | hres <;> rw [hres] <;> simp

/-- C12, amended, on a bus with token `[7]`: a request with an empty token, a
request with the unrecognized type "admin", a request with the token `[8]`,
and a `process` request with the token whose upgrade succeeds. -/
theorem request_checks_400_401_witness :
    (Bus.mk [7] []).HandleWebSocketConnection
        { token := [], processID := "p", connType := "process" } (.ok 1)
      = (Bus.mk [7] [], .responded StatusBadRequest) ∧
    (Bus.mk [7] []).HandleWebSocketConnection
        { token := [7], processID := "p", connType := "admin" } (.ok 1)
      = (Bus.mk [7] [], .responded StatusBadRequest) ∧
    (Bus.mk [7] []).HandleWebSocketConnection
        { token := [8], processID := "p", connType := "process" } (.ok 1)
      = (Bus.mk [7] [], .responded StatusUnauthorized) ∧
    (((Bus.mk [7] []).HandleWebSocketConnection
        { token := [7], processID := "p", connType := "process" } (.ok 1)).2
        = .client 1 ((Bus.mk [7] []).getProcess "p") ∨
      ((Bus.mk [7] []).HandleWebSocketConnection
        { token := [7], processID := "p", connType := "process" } (.ok 1)).2
        = .producer 1 (NewForProcess 1 "p")) ∧
    ((Bus.mk [7] []).HandleWebSocketConnection
        { token := [7], processID := "p", connType := "process" } (.ok 1)).2
      ≠ .responded StatusBadRequest ∧
    ((Bus.mk [7] []).HandleWebSocketConnection
        { token := [7], processID := "p", connType := "process" } (.ok 1)).2
      ≠ .responded StatusUnauthorized :=
  ⟨(request_checks_400_401 (Bus.mk [7] [])
      { token := [], processID := "p", connType := "process" } (.ok 1)).1 (Or.inl rfl),
   (request_checks_400_401 (Bus.mk [7] [])
      { token := [7], processID := "p", connType := "admin" } (.ok 1)).1
      (Or.inr (Or.inr (by decide))),
   (request_checks_400_401 (Bus.mk [7] [])
      { token := [8], processID := "p", connType := "process" } (.ok 1)).2.1
      (by decide) (by decide),
   ((request_checks_400_401 (Bus.mk [7] [])
      { token := [7], processID := "p", connType := "process" } (.ok 1)).2.2
      (Or.inl rfl) (by decide) (by decide) rfl).2 (by decide) 1⟩

/-- C19: for two bus states with the same token and a request whose token is
non-empty but differs from the bus token, the handler's answer is the same in
both states, whatever their registries hold and whatever an upgrade would have
given: it is 400 or 401, there is no upgrade, and neither state is changed.
The token check is decided before the registry is looked at. -/
theorem unauthenticated_answer_ignores_registry (b1 b2 : Bus) (r : Request)
    (up1 up2 : UpgradeResult) (hsame : b1.token = b2.token)
    (_hne : r.token ≠ []) (hdiff : r.token ≠ b1.token) :
    (b1.HandleWebSocketConnection r up1).2 = (b2.HandleWebSocketConnection r up2).2 ∧
    ((b1.HandleWebSocketConnection r up1).2 = .responded StatusBadRequest ∨
      (b1.HandleWebSocketConnection r up1).2 = .responded StatusUnauthorized) ∧
    (b1.HandleWebSocketConnection r up1).1 = b1 ∧
    (b2.HandleWebSocketConnection r up2).1 = b2 := by
  by_cases hbad : r.token = [] ∨ r.connType.IsValid = false ∨ r.processID = ""
  · rw [HandleWebSocketConnection_bad b1 r up1 hbad, HandleWebSocketConnection_bad b2 r up2 hbad]
    exact ⟨rfl, Or.inl rfl, rfl, rfl⟩
  · rw [HandleWebSocketConnection_unauthorized b1 r up1 hbad hdiff,
      HandleWebSocketConnection_unauthorized b2 r up2 hbad (hsame ▸ hdiff)]
    exact ⟨rfl, Or.inr rfl, rfl, rfl⟩

/-- C19 at a `client` request with the wrong token `[8]` for "p", on a bus
that holds a session for "p" and on one that holds none. -/
theorem unauthenticated_answer_ignores_registry_witness :
    ((Bus.mk [7] [("p", NewForProcess 1 "p")]).HandleWebSocketConnection
        { token := [8], processID := "p", connType := "client" } (.ok 2)).2
      = ((Bus.mk [7] []).HandleWebSocketConnection
        { token := [8], processID := "p", connType := "client" }
        (.failed (some 400) false)).2 ∧
    (((Bus.mk [7] [("p", NewForProcess 1 "p")]).HandleWebSocketConnection
        { token := [8], processID := "p", connType := "client" } (.ok 2)).2
        = .responded StatusBadRequest ∨
      ((Bus.mk [7] [("p", NewForProcess 1 "p")]).HandleWebSocketConnection
        { token := [8], processID := "p", connType := "client" } (.ok 2)).2
        = .responded StatusUnauthorized) ∧
    ((Bus.mk [7] [("p", NewForProcess 1 "p")]).HandleWebSocketConnection
        { token := [8], processID := "p", connType := "client" } (.ok 2)).1
      = Bus.mk [7] [("p", NewForProcess 1 "p")] ∧
    ((Bus.mk [7] []).HandleWebSocketConnection
        { token := [8], processID := "p", connType := "client" }
        (.failed (some 400) false)).1 = Bus.mk [7] [] :=
  unauthenticated_answer_ignores_registry (Bus.mk [7] [("p", NewForProcess 1 "p")])
    (Bus.mk [7] []) { token := [8], processID := "p", connType := "client" } (.ok 2)
    (.failed (some 400) false)
    rfl (by decide) (by decide)

/-! ## Properties of the session loops -/

/-- C13: when the loop of a producer has ended, after the handler's teardown
(`delete(b.processes, processID)` and `proc.Cleanup()`) the registry has no
entry for the producer's `processId`, the session context is cancelled, the
cancel function of every subscriber record that was in the session has been
invoked, and the subscriber set of the session is empty. -/
theorem producer_teardown (b : Bus) (processID : String) (proc : ProcessConnections) :
    (b.producerTeardown processID proc).1.getProcess processID = none ∧
    (b.producerTeardown processID proc).2.1.cancelled = true ∧
    (b.producerTeardown processID proc).2.1.subscribers = [] ∧
    (b.producerTeardown processID proc).2.2.map (fun conn => conn.conn)
      = proc.subscribers.map (fun conn => conn.conn) ∧
    (∀ conn ∈ (b.producerTeardown processID proc).2.2, conn.cancelled = true) ∧
    (∀ conn ∈ proc.subscribers,
      { conn with cancelled := true } ∈ (b.producerTeardown processID proc).2.2) := by
  refine ⟨?_, rfl, rfl, ?_, ?_, ?_⟩
  · exact mapGet_mapDelete_self _ _
  · simp [Bus.producerTeardown, ProcessConnections.Cleanup, List.map_map, Function.comp_def]
  · intro conn hconn
    simp only [Bus.producerTeardown, ProcessConnections.Cleanup, List.mem_map] at hconn
    obtain ⟨c, _, rfl⟩ := hconn
    rfl
  · intro conn hconn
    simp only [Bus.producerTeardown, ProcessConnections.Cleanup, List.mem_map]
    exact ⟨conn, hconn, rfl⟩

/-- What `Parse` accepts it returns as a message whose `Bytes()` is the input. -/
theorem Parse_ok_Bytes (data : List Byte) (m : Message) (h : Parse data = .ok m) :
    m.Bytes = data := by
  cases data with
  | nil => simp [Parse] at h
  | cons b rest =>
    by_cases hb : b = MessageTypeMessage ∨ b = MessageTypeResize ∨ b = MessageTypeReady
    · simp only [Parse, ParseMessageType_ok b hb, Except.ok.injEq] at h
      rw [← h]
      rfl
    · simp only [Parse, ParseMessageType_error b hb] at h
      cases h

/-- C14: of the messages a subscriber sends, a binary message the codec
decodes is written to the producer as exactly its bytes; a text message with
content `m` is written to the producer as the DATA tag byte 0x00 followed by
`m`; a binary message the codec rejects (empty, or unknown tag) causes nothing
to be written to the producer, and the reader goes on with the next message
(what follows is handled as if the rejected message had not been sent). -/
theorem subscriber_message_to_producer :
    (∀ (b : List Byte) (m : Message) (rest : List ReadResult), Parse b = .ok m →
      Run_toProducer (slurpMessages (.message BinaryMessage b :: rest)).1
        = b :: Run_toProducer (slurpMessages rest).1) ∧
    (∀ (m : List Byte) (rest : List ReadResult),
      Run_toProducer (slurpMessages (.message TextMessage m :: rest)).1
        = (MessageTypeMessage :: m) :: Run_toProducer (slurpMessages rest).1) ∧
    (∀ (b : List Byte) (err : String) (rest : List ReadResult), Parse b = .error err →
      slurpMessages (.message BinaryMessage b :: rest) = slurpMessages rest) ∧
    (∀ rest : List ReadResult, slurpMessages (.message BinaryMessage [] :: rest)
      = slurpMessages rest) ∧
    (∀ rest : List ReadResult, slurpMessages (.message BinaryMessage [0x99, 0x01] :: rest)
      = slurpMessages rest) := by
  have hne : ¬ (BinaryMessage = TextMessage) := by decide
  have hbin : ∀ (b : List Byte) (err : String) (rest : List ReadResult), Parse b = .error err →
      slurpMessages (.message BinaryMessage b :: rest) = slurpMessages rest := by
    intro b err rest h
    simp only [slurpMessages, if_neg hne, if_true, h]
  refine ⟨?_, ?_, hbin, ?_, ?_⟩
  · intro b m rest h
    simp only [slurpMessages, if_neg hne, if_true, h, Run_toProducer, List.map_cons,
      Parse_ok_Bytes b m h]
  · intro m rest
    have hparse : Parse (MessageTypeMessage :: m)
        = .ok { Typ := MessageTypeMessage, Payload := m } := by
      simp only [Parse, ParseMessageType_ok MessageTypeMessage (Or.inl rfl)]
    simp only [slurpMessages, if_true, Run_toProducer, Message.Bytes, List.singleton_append,
      hparse, List.map_cons]
  · intro rest
    exact hbin [] "empty message" rest rfl
  · intro rest
    exact hbin [0x99, 0x01] "unknown message type: 153" rest (by decide)

/-- C15, as stated, fails: a text frame with content `[0x68, 0x69]` read from
the producer is put on `producerToSubscribers` as it is, and a subscriber is
written `[0x68, 0x69]` (after its warm-up frame), not
`[0x00, 0x68, 0x69]`. -/
theorem producer_text_not_coerced :
    (Run_producerReader [.message TextMessage [0x68, 0x69]]).1 = [[0x68, 0x69]] ∧
    (Run_producerReader [.message TextMessage [0x68, 0x69]]).1 ≠ [[0x00, 0x68, 0x69]] ∧
    writesTo 3 (((NewForProcess 1 "p").AcceptClient 3).forwardToSubscribers [0x68, 0x69]).2
      = [[], [0x68, 0x69]] := by
  decide

/-- C15, amended: every frame the bus reads from a producer connection, text
or binary, is put on `producerToSubscribers` with its content unchanged (no
DATA tag byte is prepended, the frame type is not looked at), and the fan-out
of a blob writes that blob, as it is, to every subscriber; the only other
frame a fan-out writes is the zero-length warm-up frame. -/
theorem producer_frames_fanned_out_unchanged :
    (∀ (msgType : Nat) (msg : List Byte) (rest : List ReadResult),
      (Run_producerReader (.message msgType msg :: rest)).1
        = msg :: (Run_producerReader rest).1) ∧
    (∀ (pc : ProcessConnections) (msg : List Byte), ∀ conn ∈ pc.subscribers,
      (conn.conn, msg) ∈ (pc.forwardToSubscribers msg).2) ∧
    (∀ (pc : ProcessConnections) (msg : List Byte), ∀ e ∈ (pc.forwardToSubscribers msg).2,
      e.2 = msg ∨ e.2 = []) := by
  refine ⟨fun _ _ _ => rfl, ?_, ?_⟩
  · intro pc msg conn hconn
    simp only [ProcessConnections.forwardToSubscribers, List.mem_flatMap, List.mem_map]
    exact ⟨conn, hconn, msg, by simp [ClientConnection.frames], rfl⟩
  · intro pc msg e he
    simp only [ProcessConnections.forwardToSubscribers, List.mem_flatMap, List.mem_map] at he
    obtain ⟨conn, _, frame, hframe, rfl⟩ := he
    simp only [ClientConnection.frames, List.mem_append, List.mem_singleton] at hframe
    rcases hframe with hframe | hframe
    · right
      by_cases hw : conn.warmedUp = true
      · simp [hw] at hframe
      · have hw1 : conn.warmedUp = false := by simpa using hw
        rw [hw1] at hframe
        simpa using hframe
    · left
      exact hframe

/-- The frames written to a connection by two stretches of a log. -/
theorem writesTo_append (conn : Conn) (l1 l2 : List (Conn × List Byte)) :
    writesTo conn (l1 ++ l2) = writesTo conn l1 ++ writesTo conn l2 := by
  simp [writesTo, List.filter_append]

/-- A fan-out writes to a connection what the goroutines of the subscriber
records of that connection write. -/
theorem writesTo_forwardToSubscribers (conn : Conn) (msg : List Byte)
    (subs : List ClientConnection) :
    writesTo conn (subs.flatMap (fun c => (c.frames msg).map (fun frame => (c.conn, frame))))
      = (subs.filter (fun c => decide (c.conn = conn))).flatMap (fun c => c.frames msg) := by
  induction subs with
  | nil => rfl
  | cons c subs ih =>
    rw [List.flatMap_cons, writesTo_append, ih]
    by_cases hc : c.conn = conn
    · have h1 : writesTo conn ((c.frames msg).map (fun frame => (c.conn, frame)))
          = c.frames msg := by
        simp [writesTo, List.filter_map, Function.comp_def, hc]
      rw [h1]
      simp [List.filter_cons, hc]
    · have h1 : writesTo conn ((c.frames msg).map (fun frame => (c.conn, frame))) = [] := by
        simp [writesTo, List.filter_map, Function.comp_def, hc]
      rw [h1]
      simp [List.filter_cons, hc]

/-- A fan-out keeps the subscriber records of a connection and marks them
warmed up. -/
theorem filter_forwardToSubscribers (conn : Conn) (msg : List Byte) (pc : ProcessConnections) :
    (pc.forwardToSubscribers msg).1.subscribers.filter (fun c => decide (c.conn = conn))
      = (pc.subscribers.filter (fun c => decide (c.conn = conn))).map
          (fun c => { c with warmedUp := true }) := by
  simp only [ProcessConnections.forwardToSubscribers]
  induction pc.subscribers with
  | nil => rfl
  | cons c subs ih =>
    by_cases hc : c.conn = conn <;> simp [List.filter_cons, hc, ih]

/-- Accepting a subscriber on another connection leaves the records of this
connection as they are. -/
theorem filter_AcceptClient_ne (conn other : Conn) (pc : ProcessConnections)
    (hne : other ≠ conn) :
    (pc.AcceptClient other).subscribers.filter (fun c => decide (c.conn = conn))
      = pc.subscribers.filter (fun c => decide (c.conn = conn)) := by
  simp only [ProcessConnections.AcceptClient, List.filter_append, List.filter_filter]
  have h1 : List.filter (fun c : ClientConnection => decide (c.conn = conn))
      [{ conn := other, cancelled := pc.cancelled, warmedUp := false }] = [] := by
    simp [List.filter_cons, hne]
  rw [h1, List.append_nil]
  apply List.filter_congr
  intro c _
  by_cases hc : c.conn = conn
  · have hco : ¬ conn = other := fun h => hne h.symm
    simp [hc, hco]
  · simp [hc]

/-- Removing the subscriber of another connection leaves the records of this
connection as they are. -/
theorem filter_AcceptClient_exit_ne (conn other : Conn) (pc : ProcessConnections)
    (hne : other ≠ conn) :
    (pc.AcceptClient_exit other).subscribers.filter (fun c => decide (c.conn = conn))
      = pc.subscribers.filter (fun c => decide (c.conn = conn)) := by
  simp only [ProcessConnections.AcceptClient_exit, List.filter_filter]
  apply List.filter_congr
  intro c _
  by_cases hc : c.conn = conn
  · have hco : ¬ conn = other := fun h => hne h.symm
    simp [hc, hco]
  · simp [hc]

/-- After `AcceptClient` the session has exactly one record for the accepted
connection, and its warm-up has not fired. -/
theorem filter_AcceptClient_self (conn : Conn) (pc : ProcessConnections) :
    (pc.AcceptClient conn).subscribers.filter (fun c => decide (c.conn = conn))
      = [{ conn := conn, cancelled := pc.cancelled, warmedUp := false }] := by
  simp only [ProcessConnections.AcceptClient, List.filter_append, List.filter_filter]
  have h1 : List.filter (fun c : ClientConnection => decide (c.conn = conn) && decide (c.conn ≠ conn))
      pc.subscribers = [] := by
    apply List.filter_eq_nil_iff.mpr
    intro c _
    by_cases hc : c.conn = conn <;> simp [hc]
  rw [h1]
  simp [List.filter_cons]

/-- While the one record of a connection stays in the session, the frames
written to the connection are the payloads fanned out, in order, preceded by
the zero-length frame when the warm-up of the record had not fired. -/
theorem writesTo_runEvents (conn : Conn) (evs : List SessionEvent) :
    ∀ (pc : ProcessConnections) (rec : ClientConnection),
      pc.subscribers.filter (fun c => decide (c.conn = conn)) = [rec] →
      (∀ e ∈ evs, e.touches conn = false) →
      writesTo conn (pc.runEvents evs).2 =
        if rec.warmedUp = true ∨ payloadsOf evs = [] then payloadsOf evs
        else [] :: payloadsOf evs := by
  induction evs with
  | nil =>
    intro pc rec _ _
    simp [ProcessConnections.runEvents, payloadsOf, writesTo]
  | cons e evs ih =>
    intro pc rec hrec hstay
    have hrest : ∀ e1 ∈ evs, e1.touches conn = false :=
      fun e1 h1 => hstay e1 (List.mem_cons_of_mem _ h1)
    have he := hstay e (List.mem_cons_self _ _)
    cases e with
    | forward msg =>
      have hsel := filter_forwardToSubscribers conn msg pc
      rw [hrec] at hsel
      have hnext := ih (pc.forwardToSubscribers msg).1 _ hsel hrest
      simp only [true_or, if_true] at hnext
      have hnow : writesTo conn (pc.forwardToSubscribers msg).2 = rec.frames msg := by
        simp only [ProcessConnections.forwardToSubscribers, writesTo_forwardToSubscribers, hrec]
        simp
      simp only [ProcessConnections.runEvents, writesTo_append, hnow, hnext, payloadsOf]
      by_cases hw : rec.warmedUp = true
      · simp [ClientConnection.frames, hw]
      · simp [ClientConnection.frames, hw]
    | accept other =>
      have hne : other ≠ conn := by simpa [SessionEvent.touches] using he
      have hsel := filter_AcceptClient_ne conn other pc hne
      rw [hrec] at hsel
      simpa only [ProcessConnections.runEvents, payloadsOf] using
        ih (pc.AcceptClient other) rec hsel hrest
    | leave other =>
      have hne : other ≠ conn := by simpa [SessionEvent.touches] using he
      have hsel := filter_AcceptClient_exit_ne conn other pc hne
      rw [hrec] at hsel
      simpa only [ProcessConnections.runEvents, payloadsOf] using
        ih (pc.AcceptClient_exit other) rec hsel hrest

/-- C16: for a subscriber accepted into a session (by `AcceptClient`) that
stays attached while the payloads `p1, ..., pn` (n at least 1) are fanned out,
other subscribers being accepted or leaving meanwhile, the frames written to
its connection are exactly one zero-length warm-up frame followed by
`p1, ..., pn` in producer order. -/
theorem subscriber_frames_warmup_then_payloads (pc : ProcessConnections) (conn : Conn)
    (evs : List SessionEvent) (hstay : ∀ e ∈ evs, e.touches conn = false)
    (hn : payloadsOf evs ≠ []) :
    writesTo conn ((pc.AcceptClient conn).runEvents evs).2 = [] :: payloadsOf evs := by
  have h := writesTo_runEvents conn evs (pc.AcceptClient conn) _
    (filter_AcceptClient_self conn pc) hstay
  rw [h, if_neg]
  rintro (hc | hc)
  · cases hc
  · exact hn hc

/-- C16 for subscriber 3 of a session that already has subscriber 2: three
payloads are fanned out while subscriber 4 comes and goes. -/
theorem subscriber_frames_warmup_then_payloads_witness :
    writesTo 3 ((((NewForProcess 1 "p").AcceptClient 2).AcceptClient 3).runEvents
        [.forward [1], .accept 4, .forward [2, 3], .leave 4, .leave 2, .forward [4]]).2
      = [] :: payloadsOf
          [.forward [1], .accept 4, .forward [2, 3], .leave 4, .leave 2, .forward [4]] :=
  subscriber_frames_warmup_then_payloads ((NewForProcess 1 "p").AcceptClient 2) 3
    [.forward [1], .accept 4, .forward [2, 3], .leave 4, .leave 2, .forward [4]]
    (by decide) (by decide)

/-! ## Properties of the message handler and the reader pump -/

/-- What `Parse` accepts has one of the three defined kinds, which is the first
byte of the input. -/
theorem Parse_ok_Typ (data : List Byte) (m : Message) (h : Parse data = .ok m) :
    data.head? = some m.Typ ∧
    (m.Typ = MessageTypeMessage ∨ m.Typ = MessageTypeResize ∨ m.Typ = MessageTypeReady) := by
  cases data with
  | nil => simp [Parse] at h
  | cons b rest =>
    by_cases hb : b = MessageTypeMessage ∨ b = MessageTypeResize ∨ b = MessageTypeReady
    · simp only [Parse, ParseMessageType_ok b hb, Except.ok.injEq] at h
      rw [← h]
      exact ⟨rfl, hb⟩
    · simp only [Parse, ParseMessageType_error b hb] at h
      cases h

/-- A frame that is a protocol error makes `HandleBytes` return an error and
leave the handler as it is. -/
theorem HandleBytes_protocolError (pty : PtyBehaviour) (h : MessageHandler) (msg : List Byte)
    (hbad : protocolError msg = true) :
    ∃ err, MessageHandler.HandleBytes pty h msg = (h, some err) := by
  unfold protocolError at hbad
  unfold MessageHandler.HandleBytes
  cases hparse : Parse msg with
  | error err => exact ⟨_, rfl⟩
  | ok parsed =>
    rw [hparse] at hbad
    simp only [Bool.and_eq_true, decide_eq_true_eq] at hbad
    obtain ⟨htyp, hres⟩ := hbad
    have hnr : ¬ parsed.Typ = MessageTypeReady := by
      rw [htyp]
      decide
    simp only [if_neg hnr, if_pos htyp]
    cases hresize : parsed.Resize with
    | error err => exact ⟨_, rfl⟩
    | ok resize =>
      rw [hresize] at hres
      cases hres

/-- On a PTY whose calls all succeed, a frame that is no protocol error is
handled without error. -/
theorem HandleBytes_okPty (h : MessageHandler) (msg : List Byte)
    (hgood : protocolError msg = false) :
    (MessageHandler.HandleBytes okPty h msg).2 = none := by
  unfold protocolError at hgood
  unfold MessageHandler.HandleBytes
  cases hparse : Parse msg with
  | error err =>
    rw [hparse] at hgood
    cases hgood
  | ok parsed =>
    rw [hparse] at hgood
    simp only
    by_cases hready : parsed.Typ = MessageTypeReady
    · rw [if_pos hready]
    · rw [if_neg hready]
      by_cases hresize : parsed.Typ = MessageTypeResize
      · rw [if_pos hresize]
        cases hres : parsed.Resize with
        | error err =>
          simp [hres, hresize] at hgood
        | ok resize => rfl
      · rw [if_neg hresize]
        have hmsg : parsed.Typ = MessageTypeMessage := by
          rcases (Parse_ok_Typ msg parsed hparse).2 with h0 | h1 | h2
          · exact h0
          · exact absurd h1 hresize
          · exact absurd h2 hready
        rw [if_pos hmsg]
        simp only [Message.Text, hmsg, ne_eq, not_true_eq_false, if_false]
        rfl

/-- C17, as stated, fails: when the reader pump reads the invalid RESIZE frame
`[0x01, 0x50]` and then the DATA frame `[0x00, 0x61]`, only the first is
passed to the handler; the pump returns on the handler's error and the DATA
frame never reaches the PTY. The same happens after an empty frame and after a
frame of unknown kind. -/
theorem reader_pump_stops_at_bad_frame :
    Run_readerPump okPty NewMessageHandler [.frame [0x01, 0x50], .frame [0x00, 0x61]]
      = { handler := NewMessageHandler, dispatched := [[0x01, 0x50]],
          exit := .handlerError "parsing resize message (0150): invalid resize message" } ∧
    (Run_readerPump okPty NewMessageHandler [.frame [], .frame [0x00, 0x61]]).dispatched
      = [[]] ∧
    (Run_readerPump okPty NewMessageHandler [.frame [0x99], .frame [0x00, 0x61]]).dispatched
      = [[0x99]] ∧
    (Run_readerPump okPty NewMessageHandler [.frame [0x00, 0x61]]).handler.ptyFile
      = [.Write [0x61]] := by
  decide

/-- When the reader pump has handled every one of the frames `pre` without
error (it waits for the next read after them), then on `pre` followed by more
reads it dispatches `pre` and goes on from the handler state reached. -/
theorem Run_readerPump_append (pty : PtyBehaviour) (pre : List (List Byte))
    (rest : List BinaryRead) :
    ∀ h : MessageHandler, (Run_readerPump pty h (pre.map .frame)).exit = .blocked →
      (Run_readerPump pty h (pre.map .frame ++ rest)).dispatched
        = pre ++ (Run_readerPump pty (Run_readerPump pty h (pre.map .frame)).handler
            rest).dispatched := by
  induction pre with
  | nil =>
    intro h _
    simp [Run_readerPump]
  | cons f pre ih =>
    intro h hblocked
    simp only [List.map_cons, List.cons_append, Run_readerPump] at hblocked ⊢
    cases hf : MessageHandler.HandleBytes pty h f with
    | mk h1 res =>
      rw [hf] at hblocked
      cases res with
      | some err => simp at hblocked
      | none =>
        simp only at hblocked ⊢
        exact congrArg (List.cons f) (ih h1 hblocked)

/-- C17, amended: when the reader pump reads a frame that is a protocol error
(empty frame, unknown kind, or an invalid RESIZE such as `[0x01, 0x50]`), the
handler returns an error for it and leaves its state unchanged, and the pump
returns on that error: it has returned on a handler error, what it has
dispatched is a prefix of the frames up to and including that frame, so no
frame that follows it is dispatched. When every frame before it is handled
without error, exactly the frames up to and including the bad frame have been
dispatched; that is the case when the frames before it are no protocol errors
and the PTY calls succeed. -/
theorem reader_pump_returns_on_protocol_error (pty : PtyBehaviour) (h : MessageHandler)
    (pre : List (List Byte)) (bad : List Byte) (post : List BinaryRead)
    (hbad : protocolError bad = true) :
    (∀ h1, ∃ err, MessageHandler.HandleBytes pty h1 bad = (h1, some err)) ∧
    (∃ err, (Run_readerPump pty h (pre.map .frame ++ .frame bad :: post)).exit
      = .handlerError err) ∧
    (Run_readerPump pty h (pre.map .frame ++ .frame bad :: post)).dispatched <+: pre ++ [bad] ∧
    ((Run_readerPump pty h (pre.map .frame)).exit = .blocked →
      (Run_readerPump pty h (pre.map .frame ++ .frame bad :: post)).dispatched
        = pre ++ [bad]) ∧
    ((∀ f ∈ pre, protocolError f = false) →
      (Run_readerPump okPty h (pre.map .frame)).exit = .blocked ∧
      (Run_readerPump okPty h (pre.map .frame ++ .frame bad :: post)).dispatched
        = pre ++ [bad]) := by
  have hlast : ∀ (q : PtyBehaviour) (h1 : MessageHandler),
      (Run_readerPump q h1 (.frame bad :: post)).dispatched = [bad] := by
    intro q h1
    obtain ⟨err, herr⟩ := HandleBytes_protocolError q h1 bad hbad
    simp [Run_readerPump, herr]
  have hall : ∀ q : PtyBehaviour, (Run_readerPump q h (pre.map .frame)).exit = .blocked →
      (Run_readerPump q h (pre.map .frame ++ .frame bad :: post)).dispatched = pre ++ [bad] := by
    intro q hblocked
    rw [Run_readerPump_append q pre _ h hblocked, hlast]
  refine ⟨fun h1 => HandleBytes_protocolError pty h1 bad hbad, ?_, ?_, hall pty, ?_⟩
  · induction pre generalizing h with
    | nil =>
      obtain ⟨err, herr⟩ := HandleBytes_protocolError pty h bad hbad
      exact ⟨err, by simp [Run_readerPump, herr]⟩
    | cons f pre ih =>
      simp only [List.map_cons, List.cons_append, Run_readerPump]
      cases hf : MessageHandler.HandleBytes pty h f with
      | mk h1 res =>
        cases res with
        | some err => exact ⟨err, rfl⟩
        | none => exact ih h1 (fun q hq => by rw [Run_readerPump_append q pre _ h1 hq, hlast])
  · clear hall
    induction pre generalizing h with
    | nil =>
      obtain ⟨err, herr⟩ := HandleBytes_protocolError pty h bad hbad
      simp [Run_readerPump, herr]
    | cons f pre ih =>
      simp only [List.map_cons, List.cons_append, Run_readerPump]
      cases hf : MessageHandler.HandleBytes pty h f with
      | mk h1 res =>
        cases res with
        | some err =>
          exact ⟨pre ++ [bad], rfl⟩
        | none =>
          obtain ⟨t, ht⟩ := ih h1
          exact ⟨t, congrArg (List.cons f) ht⟩
  · intro hpre
    have hblocked : (Run_readerPump okPty h (pre.map .frame)).exit = .blocked := by
      clear hall
      induction pre generalizing h with
      | nil => rfl
      | cons f pre ih =>
        have hf := HandleBytes_okPty h f (hpre f (List.mem_cons_self _ _))
        simp only [List.map_cons, Run_readerPump]
        cases hfr : MessageHandler.HandleBytes okPty h f with
        | mk h1 res =>
          rw [hfr] at hf
          simp only at hf
          subst hf
          exact ih h1 (fun g hg => hpre g (List.mem_cons_of_mem _ hg))
    exact ⟨hblocked, hall okPty hblocked⟩

/-- C17, amended, at a READY frame and a DATA frame followed by the invalid
RESIZE `[0x01, 0x50]` and one more DATA frame. -/
theorem reader_pump_returns_on_protocol_error_witness :
    (∀ h1, ∃ err, MessageHandler.HandleBytes okPty h1 [0x01, 0x50] = (h1, some err)) ∧
    (∃ err, (Run_readerPump okPty NewMessageHandler
        ([[0x02], [0x00, 0x61]].map .frame ++ .frame [0x01, 0x50] :: [.frame [0x00, 0x62]])).exit
      = .handlerError err) ∧
    (Run_readerPump okPty NewMessageHandler
        ([[0x02], [0x00, 0x61]].map .frame ++ .frame [0x01, 0x50] :: [.frame [0x00, 0x62]])
      ).dispatched <+: [[0x02], [0x00, 0x61]] ++ [[0x01, 0x50]] ∧
    ((Run_readerPump okPty NewMessageHandler ([[0x02], [0x00, 0x61]].map .frame)).exit
        = .blocked →
      (Run_readerPump okPty NewMessageHandler
        ([[0x02], [0x00, 0x61]].map .frame ++ .frame [0x01, 0x50] :: [.frame [0x00, 0x62]])
      ).dispatched = [[0x02], [0x00, 0x61]] ++ [[0x01, 0x50]]) ∧
    ((∀ f ∈ [[(0x02 : Byte)], [0x00, 0x61]], protocolError f = false) →
      (Run_readerPump okPty NewMessageHandler ([[0x02], [0x00, 0x61]].map .frame)).exit
        = .blocked ∧
      (Run_readerPump okPty NewMessageHandler
        ([[0x02], [0x00, 0x61]].map .frame ++ .frame [0x01, 0x50] :: [.frame [0x00, 0x62]])
      ).dispatched = [[0x02], [0x00, 0x61]] ++ [[0x01, 0x50]]) :=
  reader_pump_returns_on_protocol_error okPty NewMessageHandler [[0x02], [0x00, 0x61]]
    [0x01, 0x50] [.frame [0x00, 0x62]] (by decide)

/-- A frame whose tag byte is READY fires the once (the channel is closed when
the once had not fired) and returns no error, whatever its payload. -/
theorem HandleBytes_ready (pty : PtyBehaviour) (h : MessageHandler) (msg : List Byte)
    (htag : msg.head? = some MessageTypeReady) :
    MessageHandler.HandleBytes pty h msg =
      (if h.readyOnce then h else { h with readyOnce := true, ready := h.ready + 1 }, none) := by
  cases msg with
  | nil => simp at htag
  | cons b rest =>
    have hb : b = MessageTypeReady := by simpa using htag
    subst hb
    have hparse : Parse (MessageTypeReady :: rest)
        = .ok { Typ := MessageTypeReady, Payload := rest } := by
      simp only [Parse, ParseMessageType_ok MessageTypeReady (Or.inr (Or.inr rfl))]
    simp only [MessageHandler.HandleBytes, hparse, if_true]

/-- A frame whose tag byte is not READY leaves the once and the channel as they
are. -/
theorem HandleBytes_not_ready (pty : PtyBehaviour) (h : MessageHandler) (msg : List Byte)
    (htag : msg.head? ≠ some MessageTypeReady) :
    (MessageHandler.HandleBytes pty h msg).1.readyOnce = h.readyOnce ∧
    (MessageHandler.HandleBytes pty h msg).1.ready = h.ready := by
  unfold MessageHandler.HandleBytes
  cases hparse : Parse msg with
  | error err => exact ⟨rfl, rfl⟩
  | ok parsed =>
    have hnr : ¬ parsed.Typ = MessageTypeReady := by
      intro hc
      apply htag
      rw [(Parse_ok_Typ msg parsed hparse).1, hc]
    simp only [if_neg hnr]
    split
    · split
      · exact ⟨rfl, rfl⟩
      · split <;> exact ⟨rfl, rfl⟩
    · split
      · split
        · exact ⟨rfl, rfl⟩
        · split <;> exact ⟨rfl, rfl⟩
      · exact ⟨rfl, rfl⟩

/-- From a handler whose once and channel agree, a sequence of `HandleBytes`
calls leaves them in agreement, and the channel is closed afterwards exactly
when it was closed before or some frame had the READY tag byte. -/
theorem handleAll_ready (pty : PtyBehaviour) (frames : List (List Byte)) :
    ∀ h : MessageHandler,
      ((h.readyOnce = true ∧ h.ready = 1) ∨ (h.readyOnce = false ∧ h.ready = 0)) →
      (((MessageHandler.handleAll pty h frames).readyOnce = true ∧
          (MessageHandler.handleAll pty h frames).ready = 1) ∨
        ((MessageHandler.handleAll pty h frames).readyOnce = false ∧
          (MessageHandler.handleAll pty h frames).ready = 0)) ∧
      ((MessageHandler.handleAll pty h frames).ready = 1 ↔
        (h.ready = 1 ∨ ∃ f ∈ frames, f.head? = some MessageTypeReady)) := by
  induction frames with
  | nil =>
    intro h hinv
    simp [MessageHandler.handleAll, hinv]
  | cons f frames ih =>
    intro h hinv
    simp only [MessageHandler.handleAll]
    by_cases htag : f.head? = some MessageTypeReady
    · have hstep := HandleBytes_ready pty h f htag
      have hinv1 : ((MessageHandler.HandleBytes pty h f).1.readyOnce = true ∧
          (MessageHandler.HandleBytes pty h f).1.ready = 1) := by
        rw [hstep]
        rcases hinv with ⟨h1, h2⟩ | ⟨h1, h2⟩
        · simp [h1, h2]
        · simp [h1, h2]
      obtain ⟨ih1, ih2⟩ := ih _ (Or.inl hinv1)
      refine ⟨ih1, ?_⟩
      rw [ih2]
      constructor
      · intro _
        exact Or.inr ⟨f, List.mem_cons_self _ _, htag⟩
      · intro _
        exact Or.inl hinv1.2
    · obtain ⟨hs1, hs2⟩ := HandleBytes_not_ready pty h f htag
      have hinv1 : ((MessageHandler.HandleBytes pty h f).1.readyOnce = true ∧
          (MessageHandler.HandleBytes pty h f).1.ready = 1) ∨
          ((MessageHandler.HandleBytes pty h f).1.readyOnce = false ∧
          (MessageHandler.HandleBytes pty h f).1.ready = 0) := by
        rw [hs1, hs2]
        exact hinv
      obtain ⟨ih1, ih2⟩ := ih _ hinv1
      refine ⟨ih1, ?_⟩
      rw [ih2, hs2]
      constructor
      · rintro (hc | ⟨g, hg, hgt⟩)
        · exact Or.inl hc
        · exact Or.inr ⟨g, List.mem_cons_of_mem _ hg, hgt⟩
      · rintro (hc | ⟨g, hg, hgt⟩)
        · exact Or.inl hc
        · rcases List.mem_cons.mp hg with rfl | hg
          · exact absurd hgt htag
          · exact Or.inr ⟨g, hg, hgt⟩

/-- C18: for every sequence of frames passed to `HandleBytes` on a fresh
handler, the ready latch is tripped afterwards exactly when some frame of the
sequence has the tag byte 0x02 (READY); the channel has been closed at most
once; once tripped the latch stays tripped under any further frames; a further
READY frame returns no error and changes nothing; and a frame with another tag
byte (RESIZE, DATA or anything else) never changes the latch. -/
theorem ready_latch (pty : PtyBehaviour) (frames : List (List Byte)) :
    ((MessageHandler.handleAll pty NewMessageHandler frames).tripped = true ↔
      ∃ f ∈ frames, f.head? = some MessageTypeReady) ∧
    (MessageHandler.handleAll pty NewMessageHandler frames).ready ≤ 1 ∧
    (∀ more : List (List Byte),
      (MessageHandler.handleAll pty NewMessageHandler frames).tripped = true →
      (MessageHandler.handleAll pty
        (MessageHandler.handleAll pty NewMessageHandler frames) more).tripped = true) ∧
    (∀ f : List Byte, f.head? = some MessageTypeReady →
      (MessageHandler.handleAll pty NewMessageHandler frames).tripped = true →
      MessageHandler.HandleBytes pty (MessageHandler.handleAll pty NewMessageHandler frames) f
        = (MessageHandler.handleAll pty NewMessageHandler frames, none)) ∧
    (∀ f : List Byte, f.head? ≠ some MessageTypeReady →
      (MessageHandler.HandleBytes pty
        (MessageHandler.handleAll pty NewMessageHandler frames) f).1.tripped
        = (MessageHandler.handleAll pty NewMessageHandler frames).tripped) := by
  obtain ⟨hinv, hiff⟩ := handleAll_ready pty frames NewMessageHandler (Or.inr ⟨rfl, rfl⟩)
  have hfresh : ¬ NewMessageHandler.ready = 1 := by decide
  have htrip : ∀ h : MessageHandler,
      ((h.readyOnce = true ∧ h.ready = 1) ∨ (h.readyOnce = false ∧ h.ready = 0)) →
      (h.tripped = true ↔ h.ready = 1) := by
    intro h hh
    simp only [MessageHandler.tripped, decide_eq_true_eq]
    rcases hh with ⟨_, h2⟩ | ⟨_, h2⟩ <;> omega
  refine ⟨?_, ?_, ?_, ?_, ?_⟩
  · rw [htrip _ hinv, hiff]
    constructor
    · rintro (hc | hc)
      · exact absurd hc hfresh
      · exact hc
    · exact fun hc => Or.inr hc
  · rcases hinv with ⟨_, h2⟩ | ⟨_, h2⟩ <;> omega
  · intro more ht
    obtain ⟨hinv2, hiff2⟩ := handleAll_ready pty more _ hinv
    rw [htrip _ hinv2, hiff2]
    exact Or.inl ((htrip _ hinv).mp ht)
  · intro f htag ht
    rw [HandleBytes_ready pty _ f htag]
    have hone := (htrip _ hinv).mp ht
    rcases hinv with ⟨h1, _⟩ | ⟨_, h2⟩
    · rw [h1]
      rfl
    · omega
  · intro f htag
    obtain ⟨_, hs2⟩ := HandleBytes_not_ready pty
      (MessageHandler.handleAll pty NewMessageHandler frames) f htag
    simp only [MessageHandler.tripped, hs2]

end PtyTunnel
